import Mathlib

/-!
Verification development for the local-catan game rules engine
(src/local-catan/src/main.ts: GameEngine, InitialPlacementManager, types).

Shallow embedding conventions:
* TypeScript `Map<ResourceType, number>` (player resources, bank) becomes the
  `ResCount` structure; `map.get(r) || 0` is `ResCount.get`, `map.set` is
  `ResCount.set`.  The desert key is never inserted by the code, so `get` on
  desert yields 0 and `set` on desert is a no-op.
* Machine numbers are `Int` where the code can drive them negative
  (resource counts, victory points) and `Nat` for indices and counters.
* Floating-point geometry (hex/vertex pixel coordinates, the proximity scans
  `getVerticesAdjacentToHex`, `getHexesAdjacentToVertex`, `findBorderVertices`
  and the perimeter-angle sort) is abstracted: the geometric neighbourhood
  functions are passed as explicit parameters to the operations that consume
  them, exactly where the TypeScript calls the geometric helper.
* Injected randomness (dice values, `shuffleArray` results) is passed as
  explicit arguments, mirroring the spec's injectable random source.
* Out-of-range array accesses throw a TypeError in TypeScript before any
  mutation; such paths are modelled as command rejection with the state
  unchanged.
-/

/-- Resource/tile kinds, from `enum ResourceType` in types.ts. -/
inductive ResourceType where
  | brick | wood | sheep | wheat | ore | desert
deriving DecidableEq, Repr

/-- Player colors, from `enum PlayerColor`. -/
inductive PlayerColor where
  | red | blue | orange | white
deriving DecidableEq, Repr

/-- Building kinds placed on a vertex (`'settlement' | 'city'`). -/
inductive Building where
  | settlement | city
deriving DecidableEq, Repr

/-- Port designation on an edge (`ResourceType | '3:1'`). -/
inductive Port where
  | resource (r : ResourceType) | generic
deriving DecidableEq, Repr

/-- Game phases, from `enum GamePhase`. -/
inductive GamePhase where
  | initialPlacement | rollingDice | mainPhase | trading | buildingPhase | endTurnPhase | gameOver
deriving DecidableEq, Repr

/-- A resource-count map (player resources or the bank): the TS
`Map<ResourceType, number>` holding the five productive resources. -/
structure ResCount where
  brick : Int
  wood : Int
  sheep : Int
  wheat : Int
  ore : Int
deriving DecidableEq, Repr

/-- `map.get(r) || 0`; the desert key is never present, hence 0. -/
def ResCount.get (rc : ResCount) : ResourceType → Int
  | .brick => rc.brick
  | .wood => rc.wood
  | .sheep => rc.sheep
  | .wheat => rc.wheat
  | .ore => rc.ore
  | .desert => 0

/-- `map.set(r, x)`; the code never sets the desert key, modelled as a no-op. -/
def ResCount.set (rc : ResCount) (r : ResourceType) (x : Int) : ResCount :=
  match r with
  | .brick => { rc with brick := x }
  | .wood => { rc with wood := x }
  | .sheep => { rc with sheep := x }
  | .wheat => { rc with wheat := x }
  | .ore => { rc with ore := x }
  | .desert => rc

/-- The all-zero resource map created by `createPlayer`. -/
def ResCount.zero : ResCount := ⟨0, 0, 0, 0, 0⟩

/-- A player (interface `Player`); UI-only fields (`name`,
`developmentCards`, `knights`, `longestRoad`, `hasLargestArmy`) that no
modelled operation consults are omitted. -/
structure Player where
  id : Nat
  color : PlayerColor
  resources : ResCount
  victoryPoints : Int
  settlements : Int
  cities : Int
  roads : Int
  hasLongestRoad : Bool
deriving DecidableEq, Repr

/-- A hex tile (interface `Hex`); the pixel coordinates `x`, `y` are
rendering geometry and are abstracted away (see file header). -/
structure Hex where
  id : Nat
  resourceType : ResourceType
  numberToken : Option Nat
  hasRobber : Bool
deriving DecidableEq, Repr

/-- A vertex (interface `Vertex`); pixel coordinates omitted as for `Hex`. -/
structure Vertex where
  id : Nat
  building : Option Building
  playerColor : Option PlayerColor
deriving DecidableEq, Repr

/-- An edge (interface `Edge`). -/
structure Edge where
  id : Nat
  vertex1 : Nat
  vertex2 : Nat
  road : Option PlayerColor
  port : Option Port
deriving DecidableEq, Repr

/-- The engine state (interface `GameState`); `developmentCardDeck` (always
empty), `largestArmyPlayer` and `largestArmySize` (never consulted by any
modelled operation) are omitted. -/
structure GameState where
  players : List Player
  currentPlayerIndex : Nat
  phase : GamePhase
  hexes : List Hex
  vertices : List Vertex
  edges : List Edge
  diceRolled : Bool
  lastDiceRoll : Option Nat
  lastDie1 : Option Nat
  lastDie2 : Option Nat
  rollHistory : Nat → Nat
  bank : ResCount
  longestRoadPlayer : Option Nat
  longestRoadLength : Nat
  turnNumber : Nat
  initialPlacementPhase : Bool
  initialPlacementRound : Nat

/-- Per-player setup placement counters, from
`InitialPlacementManager.placementsPerPlayer`. -/
structure Placements where
  settlements : Nat
  roads : Nat
deriving DecidableEq, Repr

/-- Engine state plus the `InitialPlacementManager`'s placement counters
(the manager is created at game start and lives beside the state). -/
structure FullState where
  gs : GameState
  placements : Nat → Placements

/-- Default player used to model a JS `undefined` array read; guarded paths
never reach it. -/
def defaultPlayer : Player :=
  { id := 0, color := .red, resources := ResCount.zero, victoryPoints := 0,
    settlements := 0, cities := 0, roads := 0, hasLongestRoad := false }

/-- Default vertex for out-of-range reads (see `defaultPlayer`). -/
def defaultVertex : Vertex := { id := 0, building := none, playerColor := none }

/-- Default edge for out-of-range reads (see `defaultPlayer`). -/
def defaultEdge : Edge := { id := 0, vertex1 := 0, vertex2 := 0, road := none, port := none }

/-- Default hex for out-of-range reads (see `defaultPlayer`). -/
def defaultHex : Hex := { id := 0, resourceType := .desert, numberToken := none, hasRobber := false }

/-- Reading an updated slot of a list (array write then read, same index). -/
theorem getD_set_self {α : Type} (xs : List α) (i : Nat) (a d : α) (h : i < xs.length) :
    (xs.set i a).getD i d = a := by
  induction xs generalizing i with
  | nil => simp at h
  | cons x xs ih =>
    cases i with
    | zero => simp [List.set, List.getD]
    | succ n =>
      simp only [List.set, List.getD, List.get?]
      exact ih n (by simpa using h)

/-- Reading an untouched slot of a list after a write elsewhere. -/
theorem getD_set_ne {α : Type} (xs : List α) {i j : Nat} (a d : α) (h : i ≠ j) :
    (xs.set i a).getD j d = xs.getD j d := by
  induction xs generalizing i j with
  | nil => simp [List.set]
  | cons x xs ih =>
    cases i with
    | zero =>
      cases j with
      | zero => exact absurd rfl h
      | succ m => simp [List.set, List.getD]
    | succ n =>
      cases j with
      | zero => simp [List.set, List.getD]
      | succ m =>
        simp only [List.set, List.getD, List.get?]
        exact ih (fun hc => h (by rw [hc]))

/-- A fold whose step preserves a projection preserves it overall. -/
theorem foldl_preserve {α β γ : Type} (f : β → γ) (g : β → α → β)
    (h : ∀ s a, f (g s a) = f s) :
    ∀ (l : List α) (s : β), f (l.foldl g s) = f s := by
  intro l
  induction l with
  | nil => intro s; rfl
  | cons x xs ih => intro s; rw [List.foldl_cons, ih, h]

/-- The fixed resource-tile multiset laid onto the 19 hexes
(`GameEngine.createBoard`, `resources` array): 3 brick, 4 wood, 4 sheep,
4 wheat, 3 ore, 1 desert. -/
def fixedResources : List ResourceType :=
  [.brick, .brick, .brick,
   .wood, .wood, .wood, .wood,
   .sheep, .sheep, .sheep, .sheep,
   .wheat, .wheat, .wheat, .wheat,
   .ore, .ore, .ore,
   .desert]

/-- The fixed 18-token number multiset `NUMBER_TOKENS`. -/
def fixedNumberTokens : List Nat :=
  [2, 3, 3, 4, 4, 5, 5, 6, 6, 8, 8, 9, 9, 10, 10, 11, 11, 12]

/-- Hex creation loop of `createBoard`: the layout's 19 cells are visited in
order consuming `shuffledResources[hexId]` (here: the head of the remaining
resource list, consumed in lockstep with the incrementing `hexId` counter)
and, for non-desert cells, `shuffledNumbers[numberIndex++]` (head of the
remaining token list).  `hasRobber` is set exactly on desert cells. -/
def mkHexes : List ResourceType → List Nat → Nat → List Hex
  | [], _, _ => []
  | r :: rest, nums, hexId =>
    if r = ResourceType.desert then
      { id := hexId, resourceType := r, numberToken := none, hasRobber := true }
        :: mkHexes rest nums (hexId + 1)
    else
      { id := hexId, resourceType := r, numberToken := some (nums.headD 0), hasRobber := false }
        :: mkHexes rest nums.tail (hexId + 1)

/-- `GameEngine.createBoard`, given the shuffled resource and token lists
(`shuffleArray` outputs injected).  Vertices and edges are created as
placeholders: 54 empty vertices and 72 edges whose `vertex1`/`vertex2` are
both 0, to be connected later by the renderer. -/
def createBoard (res : List ResourceType) (nums : List Nat) :
    List Hex × List Vertex × List Edge :=
  (mkHexes res nums 0,
   (List.range 54).map (fun i => { id := i, building := none, playerColor := none }),
   (List.range 72).map (fun i => { id := i, vertex1 := 0, vertex2 := 0, road := none, port := none }))

/-- `GameEngine.createPlayer`. -/
def createPlayer (i : Nat) (c : PlayerColor) : Player :=
  { id := i, color := c, resources := ResCount.zero, victoryPoints := 0,
    settlements := 0, cities := 0, roads := 0, hasLongestRoad := false }

/-- The bank initialised by `initializeGame`: `RESOURCE_DISTRIBUTION` counts
times 19 per productive resource (brick 57, wood 76, sheep 76, wheat 76,
ore 57). -/
def initialBank : ResCount := ⟨57, 76, 76, 76, 57⟩

/-- `GameEngine.initializeGame` with the two shuffle outputs injected. -/
def initializeGame (res : List ResourceType) (nums : List Nat) : GameState :=
  let board := createBoard res nums
  { players := [createPlayer 0 .red, createPlayer 1 .blue,
                createPlayer 2 .orange, createPlayer 3 .white],
    currentPlayerIndex := 0,
    phase := .initialPlacement,
    hexes := board.1,
    vertices := board.2.1,
    edges := board.2.2,
    diceRolled := false,
    lastDiceRoll := none,
    lastDie1 := none,
    lastDie2 := none,
    rollHistory := fun _ => 0,
    bank := initialBank,
    longestRoadPlayer := none,
    longestRoadLength := 5,
    turnNumber := 0,
    initialPlacementPhase := true,
    initialPlacementRound := 1 }

/-- Game construction including the `InitialPlacementManager`, whose
per-player counters start at zero. -/
def initialFull (res : List ResourceType) (nums : List Nat) : FullState :=
  { gs := initializeGame res nums, placements := fun _ => ⟨0, 0⟩ }

/-- `GameEngine.canAffordSettlement`. -/
def canAffordSettlement (p : Player) : Bool :=
  1 ≤ p.resources.get .brick && 1 ≤ p.resources.get .wood &&
  1 ≤ p.resources.get .sheep && 1 ≤ p.resources.get .wheat

/-- `GameEngine.canAffordCity`. -/
def canAffordCity (p : Player) : Bool :=
  2 ≤ p.resources.get .wheat && 3 ≤ p.resources.get .ore

/-- `GameEngine.canAffordRoad`. -/
def canAffordRoad (p : Player) : Bool :=
  1 ≤ p.resources.get .brick && 1 ≤ p.resources.get .wood

/-- `GameEngine.payForSettlement`. -/
def payForSettlement (p : Player) : Player :=
  let r1 := p.resources.set .brick (p.resources.get .brick - 1)
  let r2 := r1.set .wood (r1.get .wood - 1)
  let r3 := r2.set .sheep (r2.get .sheep - 1)
  let r4 := r3.set .wheat (r3.get .wheat - 1)
  { p with resources := r4 }

/-- `GameEngine.payForCity`. -/
def payForCity (p : Player) : Player :=
  let r1 := p.resources.set .wheat (p.resources.get .wheat - 2)
  let r2 := r1.set .ore (r1.get .ore - 3)
  { p with resources := r2 }

/-- `GameEngine.payForRoad`. -/
def payForRoad (p : Player) : Player :=
  let r1 := p.resources.set .brick (p.resources.get .brick - 1)
  let r2 := r1.set .wood (r1.get .wood - 1)
  { p with resources := r2 }

/-- `GameEngine.getAdjacentVertices` (also duplicated verbatim in
`InitialPlacementManager`): endpoints opposite `vertexId` over all edges.
The TS accumulates into a `Set`; only membership is ever consulted
(`checkDistanceRule`), so the deduplication is immaterial and the collection
is modelled as a list. -/
def getAdjacentVertices (s : GameState) (vertexId : Nat) : List Nat :=
  s.edges.foldl (fun acc e =>
    if e.vertex1 = vertexId then acc ++ [e.vertex2]
    else if e.vertex2 = vertexId then acc ++ [e.vertex1]
    else acc) []

/-- `GameEngine.checkDistanceRule` (duplicated in
`InitialPlacementManager`): no adjacent vertex may hold a building. -/
def checkDistanceRule (s : GameState) (vertexId : Nat) : Bool :=
  (getAdjacentVertices s vertexId).all
    (fun adjId => (s.vertices.getD adjId defaultVertex).building = none)

/-- `GameEngine.getConnectedEdges`: indices of the other edges sharing a
vertex with `edgeId`. -/
def getConnectedEdges (s : GameState) (edgeId : Nat) : List Nat :=
  let e := s.edges.getD edgeId defaultEdge
  (List.range s.edges.length).filter (fun i =>
    decide (i ≠ edgeId ∧
      (let o := s.edges.getD i defaultEdge
       o.vertex1 = e.vertex1 ∨ o.vertex1 = e.vertex2 ∨
       o.vertex2 = e.vertex1 ∨ o.vertex2 = e.vertex2)))

/-- `GameEngine.isRoadConnected`: the edge touches one of the player's
buildings, or a connected edge carries the player's road. -/
def isRoadConnected (s : GameState) (edgeId playerId : Nat) : Bool :=
  let e := s.edges.getD edgeId defaultEdge
  let c := (s.players.getD playerId defaultPlayer).color
  let v1 := s.vertices.getD e.vertex1 defaultVertex
  let v2 := s.vertices.getD e.vertex2 defaultVertex
  if (v1.building ≠ none && v1.playerColor = some c) ||
     (v2.building ≠ none && v2.playerColor = some c) then true
  else
    (getConnectedEdges s edgeId).any
      (fun i => (s.edges.getD i defaultEdge).road = some c)

/-- `GameEngine.getEdgesConnectedToVertex`: indices of the edges incident to
`vertexId`. -/
def getEdgesConnectedToVertex (edges : List Edge) (vertexId : Nat) : List Nat :=
  (List.range edges.length).filter (fun i =>
    decide ((edges.getD i defaultEdge).vertex1 = vertexId ∨
            (edges.getD i defaultEdge).vertex2 = vertexId))

/-- `GameEngine.findLongestPathFromEdge`: depth-first longest-trail search.
The TS recursion adds `edgeId` to the mutable visited set, recurses into each
unvisited edge of the player's colour reachable through either endpoint, and
deletes `edgeId` on return; the delete-on-return discipline means every
sibling call sees the same set, so it is modelled by value-passing the
visited list.  The recursion terminates because the visited set grows; here
that is expressed with a fuel argument, always called with more fuel than
there are edges so the base case is never reached. -/
def findLongestPathFromEdge (edges : List Edge) (c : PlayerColor) :
    Nat → Nat → List Nat → Nat
  | 0, _, _ => 1
  | fuel + 1, edgeId, visited =>
    let visited1 := edgeId :: visited
    let e := edges.getD edgeId defaultEdge
    let candidates :=
      (getEdgesConnectedToVertex edges e.vertex1 ++
       getEdgesConnectedToVertex edges e.vertex2).filter (fun nid =>
        decide (nid ≠ edgeId ∧ nid ∉ visited1 ∧
          (edges.getD nid defaultEdge).road = some c))
    candidates.foldl
      (fun m nid => max m (1 + findLongestPathFromEdge edges c fuel nid visited1)) 1

/-- `GameEngine.calculateLongestRoad`: indices of the player's edges, then
the DFS from every owned start edge.  The outer `visited` set is empty at
every iteration (the DFS restores it), so the `!visited.has(start)` guard is
modelled against the empty list. -/
def calculateLongestRoad (s : GameState) (playerId : Nat) : Nat :=
  let c := (s.players.getD playerId defaultPlayer).color
  let playerRoads := (List.range s.edges.length).filter
    (fun i => decide ((s.edges.getD i defaultEdge).road = some c))
  if playerRoads = [] then 0
  else
    let visited : List Nat := []
    playerRoads.foldl (fun m start =>
      if visited.contains start then m
      else max m (findLongestPathFromEdge s.edges c (s.edges.length + 1) start visited)) 0

/-- `GameEngine.updateLongestRoad`.  The selection loop keeps the strictly
longest player, breaking exact ties of length at least 5 in favour of the
recorded holder; then, whenever the maximum is at least 5, the 2 VP are
removed from the recorded holder (if flagged) and awarded only when the
selected player differs from the recorded holder. -/
def updateLongestRoad (s : GameState) : GameState :=
  let sel := s.players.foldl (fun (acc : Option Nat × Nat) p =>
    let len := calculateLongestRoad s p.id
    if acc.2 < len then (some p.id, len)
    else if len = acc.2 ∧ 5 ≤ len then
      (if s.longestRoadPlayer = some p.id then (some p.id, acc.2) else acc)
    else acc) (none, 0)
  let longestPlayer := sel.1
  let longestLength := sel.2
  if 5 ≤ longestLength then
    let s1 :=
      match s.longestRoadPlayer with
      | none => s
      | some prev =>
        let pp := s.players.getD prev defaultPlayer
        if pp.hasLongestRoad then
          let pp2 := { pp with victoryPoints := pp.victoryPoints - 2, hasLongestRoad := false }
          { s with players := s.players.set prev pp2 }
        else s
    match longestPlayer with
    | none => s1
    | some lp =>
      if s1.longestRoadPlayer ≠ some lp then
        let np := s1.players.getD lp defaultPlayer
        { s1 with
          players := s1.players.set lp
            { np with victoryPoints := np.victoryPoints + 2, hasLongestRoad := true },
          longestRoadPlayer := some lp,
          longestRoadLength := longestLength }
      else s1
  else s

/-- Normal-phase branch of `GameEngine.buildSettlement` (lines after the
initial-placement dispatch): affordability, vacancy and distance checks, then
the mutation and payment.  Out-of-range `playerId`/`vertexId` throw in TS
before mutating; modelled as rejection. -/
def buildSettlement (vertexId playerId : Nat) (s : GameState) : Bool × GameState :=
  if playerId < s.players.length ∧ vertexId < s.vertices.length then
    let player := s.players.getD playerId defaultPlayer
    let vertex := s.vertices.getD vertexId defaultVertex
    if ¬ canAffordSettlement player then (false, s)
    else if vertex.building ≠ none then (false, s)
    else if ¬ checkDistanceRule s vertexId then (false, s)
    else
      let s1 := { s with
        vertices := s.vertices.set vertexId
          { vertex with building := some .settlement, playerColor := some player.color },
        players := s.players.set playerId
          (payForSettlement { player with settlements := player.settlements + 1,
                                          victoryPoints := player.victoryPoints + 1 }) }
      (true, s1)
  else (false, s)

/-- `GameEngine.buildCity`: requires the player's own settlement on the
vertex, affordability, then upgrades and pays. -/
def buildCity (vertexId playerId : Nat) (s : GameState) : Bool × GameState :=
  if playerId < s.players.length ∧ vertexId < s.vertices.length then
    let player := s.players.getD playerId defaultPlayer
    let vertex := s.vertices.getD vertexId defaultVertex
    if vertex.building ≠ some .settlement ∨ vertex.playerColor ≠ some player.color then (false, s)
    else if ¬ canAffordCity player then (false, s)
    else
      let s1 := { s with
        vertices := s.vertices.set vertexId { vertex with building := some .city },
        players := s.players.set playerId
          (payForCity { player with cities := player.cities + 1,
                                    settlements := player.settlements - 1,
                                    victoryPoints := player.victoryPoints + 1 }) }
      (true, s1)
  else (false, s)

/-- Normal-phase branch of `GameEngine.buildRoad`: vacancy, affordability and
connectivity checks, then mutation, payment, and the longest-road rescoring. -/
def buildRoadNormal (edgeId playerId : Nat) (s : GameState) : Bool × GameState :=
  if playerId < s.players.length ∧ edgeId < s.edges.length then
    let player := s.players.getD playerId defaultPlayer
    let edge := s.edges.getD edgeId defaultEdge
    if edge.road ≠ none then (false, s)
    else if ¬ canAffordRoad player then (false, s)
    else if ¬ isRoadConnected s edgeId playerId then (false, s)
    else
      let s1 := { s with
        edges := s.edges.set edgeId { edge with road := some player.color },
        players := s.players.set playerId
          (payForRoad { player with roads := player.roads + 1 }) }
      (true, updateLongestRoad s1)
  else (false, s)

/-- First-match player update keyed by colour, modelling
`players.find(p => p.color === color)` followed by in-place mutation of the
found player's resource map; when no player matches (the `if (player ...)`
guard fails) nothing changes. -/
def creditFirst (c : PlayerColor) (r : ResourceType) (amount : Int) :
    List Player → List Player
  | [] => []
  | p :: ps =>
    if p.color = c then
      { p with resources := p.resources.set r (p.resources.get r + amount) } :: ps
    else p :: creditFirst c r amount ps

/-- Per-vertex body of `distributeResources`: if the vertex holds a building
with an owner colour and the hex is productive, credit 1 (settlement) or 2
(city) of the hex's resource to the first player of that colour. -/
def distStep (hex : Hex) (st2 : GameState) (vid : Nat) : GameState :=
  let v := st2.vertices.getD vid defaultVertex
  match v.building, v.playerColor with
  | some b, some pc =>
    if hex.resourceType ≠ .desert then
      let amount : Int := if b = Building.city then 2 else 1
      { st2 with players := creditFirst pc hex.resourceType amount st2.players }
    else st2
  | _, _ => st2

/-- Per-hex body of `distributeResources`: walk the hex's vertices
(geometric `getVerticesAdjacentToHex`, abstracted as `adj`). -/
def distHex (adj : Nat → List Nat) (hex : Hex) (st : GameState) : GameState :=
  (adj hex.id).foldl (distStep hex) st

/-- `GameEngine.distributeResources`: for every hex whose token equals the
roll and which is robber-free, every vertex of the hex holding a building
credits the building's owner 1 (settlement) or 2 (city) of the hex's
resource.  The bank is never consulted or modified. -/
def distributeResources (adj : Nat → List Nat) (diceRoll : Nat) (s : GameState) : GameState :=
  let matching := s.hexes.filter (fun h =>
    decide (h.numberToken = some diceRoll ∧ h.hasRobber = false))
  matching.foldl (fun st hex => distHex adj hex st) s

/-- Total resource cards of a player (`Array.from(resources.values())`
summed). -/
def totalResources (p : Player) : Int :=
  p.resources.get .brick + p.resources.get .wood + p.resources.get .sheep +
  p.resources.get .wheat + p.resources.get .ore

/-- Expansion of a player's resource map into one card per unit
(`discardResources`, first loop); map iteration follows insertion order
brick, wood, sheep, wheat, ore. -/
def expandResources (p : Player) : List ResourceType :=
  List.replicate (p.resources.get .brick).toNat .brick ++
  List.replicate (p.resources.get .wood).toNat .wood ++
  List.replicate (p.resources.get .sheep).toNat .sheep ++
  List.replicate (p.resources.get .wheat).toNat .wheat ++
  List.replicate (p.resources.get .ore).toNat .ore

/-- `GameEngine.discardResources` for player index `i`: shuffle the expanded
cards (`shuffleArray` output injected as `σ`), discard the first `count`,
each returning one unit to the bank. -/
def discardResources (σ : List ResourceType → List ResourceType)
    (i : Nat) (count : Nat) (s : GameState) : GameState :=
  let p := s.players.getD i defaultPlayer
  let toDiscard := (σ (expandResources p)).take count
  toDiscard.foldl (fun st r =>
    let q := st.players.getD i defaultPlayer
    { st with
      players := st.players.set i { q with resources := q.resources.set r (q.resources.get r - 1) },
      bank := st.bank.set r (st.bank.get r + 1) }) s

/-- `GameEngine.handleRobberActivation`: every player holding more than 7
cards discards `floor(total/2)` of them; `σ` supplies each player's shuffle. -/
def handleRobberActivation (σ : Nat → List ResourceType → List ResourceType)
    (s : GameState) : GameState :=
  (List.range s.players.length).foldl (fun st i =>
    let p := st.players.getD i defaultPlayer
    let total := totalResources p
    if 7 < total then discardResources (σ i) i (total / 2).toNat st else st) s

/-- `GameEngine.rollDice` with the two die values injected.  When dice were
already rolled the TS throws before mutating anything; modelled as the
unchanged state.  Otherwise the roll is recorded, the histogram bumped, and
either the robber activation (sum 7) or the distribution runs, after which
the phase becomes the main phase. -/
def rollDice (d1 d2 : Nat) (adj : Nat → List Nat)
    (σ : Nat → List ResourceType → List ResourceType) (s : GameState) : GameState :=
  if s.diceRolled then s
  else
    let total := d1 + d2
    let s1 := { s with
      diceRolled := true,
      lastDiceRoll := some total,
      lastDie1 := some d1,
      lastDie2 := some d2,
      rollHistory := fun n => if n = total then s.rollHistory total + 1 else s.rollHistory n }
    if total = 7 then { handleRobberActivation σ s1 with phase := .mainPhase }
    else { distributeResources adj total s1 with phase := .mainPhase }

/-- `GameEngine.moveRobber`: clear the robber flag from every hex, then set
it on the target hex only when the target exists and is not a desert. -/
def moveRobber (hexId : Nat) (s : GameState) : GameState :=
  let cleared := s.hexes.map (fun h => { h with hasRobber := false })
  match cleared.get? hexId with
  | some target =>
    if target.resourceType ≠ .desert then
      { s with hexes := cleared.set hexId { target with hasRobber := true } }
    else { s with hexes := cleared }
  | none => { s with hexes := cleared }

/-- `GameEngine.endTurn`: reset the per-turn roll state, advance the seat,
bump the turn counter, and enter game-over when the player who has just
become current holds at least 10 VP. -/
def endTurn (s : GameState) : GameState :=
  let s1 := { s with
    diceRolled := false,
    lastDie1 := none,
    lastDie2 := none,
    currentPlayerIndex := (s.currentPlayerIndex + 1) % 4,
    turnNumber := s.turnNumber + 1,
    phase := GamePhase.rollingDice }
  if 10 ≤ (s1.players.getD s1.currentPlayerIndex defaultPlayer).victoryPoints then
    { s1 with phase := .gameOver }
  else s1

/-- `GameEngine.findBorderEdges` with the geometric border-vertex scan
(`findBorderVertices`, a floating-point proximity count) abstracted as the
`borderVerts` parameter: road-free edges both of whose endpoints are border
vertices. -/
def findBorderEdges (borderVerts : List Nat) (s : GameState) : List Nat :=
  (List.range s.edges.length).filter (fun i =>
    let e := s.edges.getD i defaultEdge
    decide (e.vertex1 ∈ borderVerts ∧ e.vertex2 ∈ borderVerts ∧ e.road = none))

/-- `GameEngine.assignPorts`, with the geometric inputs abstracted:
`borderVerts` as in `findBorderEdges`, `sortPerim` for the floating-point
perimeter-angle sort, and `portTypes` for the shuffled 9-element port-type
list.  With fewer than 9 eligible border edges the TS logs a console warning
and returns, leaving the state untouched; otherwise 9 evenly spaced border
edges receive the shuffled port types. -/
def assignPorts (borderVerts : List Nat) (sortPerim : List Nat → List Nat)
    (portTypes : List Port) (s : GameState) : GameState :=
  let borderEdges := findBorderEdges borderVerts s
  if borderEdges.length < 9 then s
  else
    let sorted := sortPerim borderEdges
    let interval := sorted.length / 9
    let fixedPortEdges := (List.range 9).map (fun i => sorted.getD ((i * interval) % sorted.length) 0)
    (List.range 9).foldl (fun st i =>
      let eid := fixedPortEdges.getD i 0
      let e := st.edges.getD eid defaultEdge
      { st with edges := st.edges.set eid { e with port := some (portTypes.getD i Port.generic) } }) s

/-- `InitialPlacementManager.canPlaceSettlement`: turn check, per-round
settlement-count check, vacancy, distance rule.  An out-of-range `vertexId`
throws at the `vertex.building` read in TS; modelled as rejection. -/
def canPlaceSettlement (fs : FullState) (vertexId playerId : Nat) : Bool :=
  let s := fs.gs
  let pl := fs.placements playerId
  if s.currentPlayerIndex ≠ playerId then false
  else if s.initialPlacementRound = 1 ∧ 1 ≤ pl.settlements then false
  else if s.initialPlacementRound ≠ 1 ∧ 2 ≤ pl.settlements then false
  else if vertexId < s.vertices.length then
    let v := s.vertices.getD vertexId defaultVertex
    if v.building ≠ none then false
    else checkDistanceRule s vertexId
  else false

/-- `InitialPlacementManager.canPlaceRoad`: turn check, per-round
step-ordering checks, vacancy, and incidence to one of the player's
settlements. -/
def canPlaceRoad (fs : FullState) (edgeId playerId : Nat) : Bool :=
  let s := fs.gs
  let pl := fs.placements playerId
  if s.currentPlayerIndex ≠ playerId then false
  else if s.initialPlacementRound = 1 ∧ (pl.settlements < 1 ∨ 1 ≤ pl.roads) then false
  else if s.initialPlacementRound ≠ 1 ∧ (pl.settlements < 2 ∨ 2 ≤ pl.roads) then false
  else if edgeId < s.edges.length ∧ playerId < s.players.length then
    let e := s.edges.getD edgeId defaultEdge
    let player := s.players.getD playerId defaultPlayer
    if e.road ≠ none then false
    else
      let v1 := s.vertices.getD e.vertex1 defaultVertex
      let v2 := s.vertices.getD e.vertex2 defaultVertex
      (v1.building = some Building.settlement && v1.playerColor = some player.color) ||
      (v2.building = some Building.settlement && v2.playerColor = some player.color)
  else false

/-- Per-hex body of `giveInitialResources`: one unit of the hex's resource
when it is non-desert and carries a number token. -/
def giveStep (playerId : Nat) (st : GameState) (hid : Nat) : GameState :=
  let hex := st.hexes.getD hid defaultHex
  if hex.resourceType ≠ .desert ∧ hex.numberToken ≠ none then
    let p := st.players.getD playerId defaultPlayer
    let newres := p.resources.set hex.resourceType (p.resources.get hex.resourceType + 1)
    { st with players := st.players.set playerId { p with resources := newres } }
  else st

/-- `InitialPlacementManager.giveInitialResources`: one unit of the resource
of every adjacent (geometric `getHexesAdjacentToVertex`, abstracted as
`adjHexes`) hex that is non-desert and carries a number token. -/
def giveInitialResources (adjHexes : Nat → List Nat) (vertexId playerId : Nat)
    (s : GameState) : GameState :=
  (adjHexes vertexId).foldl (giveStep playerId) s

/-- `InitialPlacementManager.placeInitialSettlement`: validate, place the
settlement, bump counters, and in round 2 grant the initial resources. -/
def placeInitialSettlement (adjHexes : Nat → List Nat) (vertexId playerId : Nat)
    (fs : FullState) : Bool × FullState :=
  if ¬ canPlaceSettlement fs vertexId playerId then (false, fs)
  else
    let s := fs.gs
    let v := s.vertices.getD vertexId defaultVertex
    let p := s.players.getD playerId defaultPlayer
    let pl := fs.placements playerId
    let v2 := { v with building := some Building.settlement, playerColor := some p.color }
    let p2 := { p with settlements := p.settlements + 1, victoryPoints := p.victoryPoints + 1 }
    let s1 := { s with vertices := s.vertices.set vertexId v2,
                       players := s.players.set playerId p2 }
    let pl2 := fun k =>
      if k = playerId then { pl with settlements := pl.settlements + 1 } else fs.placements k
    let fs1 : FullState := { gs := s1, placements := pl2 }
    if s.initialPlacementRound = 2 then
      (true, { fs1 with gs := giveInitialResources adjHexes vertexId playerId fs1.gs })
    else (true, fs1)

/-- `InitialPlacementManager.placeInitialRoad`: validate, place the road,
bump counters. -/
def placeInitialRoad (edgeId playerId : Nat) (fs : FullState) : Bool × FullState :=
  if ¬ canPlaceRoad fs edgeId playerId then (false, fs)
  else
    let s := fs.gs
    let e := s.edges.getD edgeId defaultEdge
    let p := s.players.getD playerId defaultPlayer
    let pl := fs.placements playerId
    let s1 := { s with
      edges := s.edges.set edgeId { e with road := some p.color },
      players := s.players.set playerId { p with roads := p.roads + 1 } }
    let pl2 := fun k =>
      if k = playerId then { pl with roads := pl.roads + 1 } else fs.placements k
    (true, { gs := s1, placements := pl2 })

/-- `InitialPlacementManager.advanceToNextPlayer`: round 1 walks seats
forward, switching to round 2 on seat 3 (staying there); round 2 walks
backward, and on seat 0 ends the setup phase handing control to the turn
machine with seat 0 current. -/
def advanceToNextPlayer (fs : FullState) : FullState :=
  let s := fs.gs
  if s.initialPlacementRound = 1 then
    if s.currentPlayerIndex = 3 then
      { fs with gs := { s with initialPlacementRound := 2 } }
    else
      { fs with gs := { s with currentPlayerIndex := (s.currentPlayerIndex + 1) % 4 } }
  else
    if s.currentPlayerIndex = 0 then
      { fs with gs := { s with initialPlacementPhase := false,
                               phase := .rollingDice,
                               currentPlayerIndex := 0 } }
    else
      { fs with gs := { s with currentPlayerIndex := (s.currentPlayerIndex + 4 - 1) % 4 } }

/-- `GameEngine.buildSettlement`: dispatch to the placement manager during
the initial-placement phase, otherwise the normal build. -/
def buildSettlementF (vertexId playerId : Nat) (adjHexes : Nat → List Nat)
    (fs : FullState) : Bool × FullState :=
  if fs.gs.initialPlacementPhase then
    placeInitialSettlement adjHexes vertexId playerId fs
  else
    let r := buildSettlement vertexId playerId fs.gs
    (r.1, { fs with gs := r.2 })

/-- `GameEngine.buildCity` at the `FullState` level (the TS method has no
initial-placement branch). -/
def buildCityF (vertexId playerId : Nat) (fs : FullState) : Bool × FullState :=
  let r := buildCity vertexId playerId fs.gs
  (r.1, { fs with gs := r.2 })

/-- `GameEngine.buildRoad`: during the initial-placement phase (and when a
supporting vertex id was supplied) the placement manager runs, and on
success the seat advances once the current round's settlement and road
quotas are met; otherwise the normal build runs. -/
def buildRoadF (edgeId playerId : Nat) (vertexIdOpt : Option Nat)
    (fs : FullState) : Bool × FullState :=
  if fs.gs.initialPlacementPhase ∧ vertexIdOpt ≠ none then
    let r := placeInitialRoad edgeId playerId fs
    if r.1 then
      let fs1 := r.2
      let status := fs1.placements playerId
      let round := fs1.gs.initialPlacementRound
      if round = 1 then
        if 1 ≤ status.settlements ∧ 1 ≤ status.roads then (true, advanceToNextPlayer fs1)
        else (true, fs1)
      else if round = 2 then
        if 2 ≤ status.settlements ∧ 2 ≤ status.roads then (true, advanceToNextPlayer fs1)
        else (true, fs1)
      else (true, fs1)
    else (false, r.2)
  else
    let r := buildRoadNormal edgeId playerId fs.gs
    (r.1, { fs with gs := r.2 })

/-- Lift of a pure `GameState` transformer to `FullState`. -/
def liftG (f : GameState → GameState) (fs : FullState) : FullState :=
  { fs with gs := f fs.gs }

/-- States reachable from game initialisation through the public command
surface (setup placements run inside `buildSettlementF`/`buildRoadF`).  The
`init` case injects the `shuffleArray` outputs as permutations of the fixed
tile and token multisets; `roll` injects two dice in 1..6 and per-player
discard shuffles that permute their input; geometric adjacency functions are
arbitrary. -/
inductive Reachable : FullState → Prop where
  | init (res : List ResourceType) (nums : List Nat)
      (hres : res.Perm fixedResources) (hnums : nums.Perm fixedNumberTokens) :
      Reachable (initialFull res nums)
  | roll (d1 d2 : Nat) (adj : Nat → List Nat)
      (σ : Nat → List ResourceType → List ResourceType)
      (hd1 : 1 ≤ d1 ∧ d1 ≤ 6) (hd2 : 1 ≤ d2 ∧ d2 ≤ 6)
      (hσ : ∀ i l, (σ i l).Perm l)
      {fs : FullState} (h : Reachable fs) :
      Reachable (liftG (rollDice d1 d2 adj σ) fs)
  | buildS (vertexId playerId : Nat) (adjHexes : Nat → List Nat)
      {fs : FullState} (h : Reachable fs) :
      Reachable (buildSettlementF vertexId playerId adjHexes fs).2
  | buildC (vertexId playerId : Nat) {fs : FullState} (h : Reachable fs) :
      Reachable (buildCityF vertexId playerId fs).2
  | buildR (edgeId playerId : Nat) (vertexIdOpt : Option Nat)
      {fs : FullState} (h : Reachable fs) :
      Reachable (buildRoadF edgeId playerId vertexIdOpt fs).2
  | robber (hexId : Nat) {fs : FullState} (h : Reachable fs) :
      Reachable (liftG (moveRobber hexId) fs)
  | endT {fs : FullState} (h : Reachable fs) :
      Reachable (liftG endTurn fs)

/-- Number of hexes currently flagged as holding the robber. -/
def countRobbers (s : GameState) : Nat :=
  s.hexes.countP (fun h => h.hasRobber)

/-! ### Basic lemmas about the embedded primitives -/

/-- Reading the slot just written in a resource map (productive resource). -/
theorem ResCount.get_set_self (rc : ResCount) (r : ResourceType) (x : Int)
    (h : r ≠ .desert) : (rc.set r x).get r = x := by
  cases r <;> simp [ResCount.get, ResCount.set] at h ⊢

/-- Reading another slot of a resource map after a write. -/
theorem ResCount.get_set_ne (rc : ResCount) {r q : ResourceType} (x : Int)
    (h : q ≠ r) : (rc.set r x).get q = rc.get q := by
  cases r <;> cases q <;> simp_all [ResCount.get, ResCount.set]

/-- The hex-creation loop produces one hex per resource cell. -/
theorem mkHexes_length : ∀ (res : List ResourceType) (nums : List Nat) (i : Nat),
    (mkHexes res nums i).length = res.length := by
  intro res
  induction res with
  | nil => intro nums i; rfl
  | cons r rest ih =>
    intro nums i
    by_cases h : r = ResourceType.desert <;> simp [mkHexes, h, ih]

/-- The hex-creation loop flags the robber exactly on the desert cells. -/
theorem mkHexes_robbers : ∀ (res : List ResourceType) (nums : List Nat) (i : Nat),
    (mkHexes res nums i).countP (fun h => h.hasRobber)
      = res.countP (fun r => decide (r = ResourceType.desert)) := by
  intro res
  induction res with
  | nil => intro nums i; rfl
  | cons r rest ih =>
    intro nums i
    by_cases h : r = ResourceType.desert <;>
      simp [mkHexes, h, List.countP_cons, ih]

/-! ### Fixtures: small concrete states exercising the engine -/

/-- The four players created by `initializeGame`, with no resources. -/
def basePlayers : List Player :=
  [createPlayer 0 .red, createPlayer 1 .blue, createPlayer 2 .orange, createPlayer 3 .white]

/-- A minimal main-phase state template; claim fixtures override the board
and player fields they need. -/
def baseState : GameState where
  players := basePlayers
  currentPlayerIndex := 0
  phase := .mainPhase
  hexes := []
  vertices := []
  edges := []
  diceRolled := false
  lastDiceRoll := none
  lastDie1 := none
  lastDie2 := none
  rollHistory := fun _ => 0
  bank := initialBank
  longestRoadPlayer := none
  longestRoadLength := 5
  turnNumber := 0
  initialPlacementPhase := false
  initialPlacementRound := 1

/-! ### C9 — board construction counts and edge placeholders -/

/-- C9 counterexample: in the board as constructed by
`GameEngine.createBoard`, the first edge (like all 72) has
`vertex1 = vertex2 = 0`, so it does not have two distinct incident
vertices; the renderer only connects edges later. -/
theorem c9_placeholder_edges_counterexample :
    ((createBoard fixedResources fixedNumberTokens).2.2.getD 0 defaultEdge).vertex1
      = ((createBoard fixedResources fixedNumberTokens).2.2.getD 0 defaultEdge).vertex2 ∧
    0 < (createBoard fixedResources fixedNumberTokens).2.2.length := by
  constructor
  · rfl
  · decide

/-- C9 (amended): for every 19-tile shuffle, `createBoard` yields exactly 19
hexes, 54 vertices and 72 edges, but every edge is a placeholder whose two
incident-vertex fields are both 0 (the renderer's floating-point pass
connects them later), so no edge has two distinct incident vertices at
construction time. -/
theorem c9_board_counts_amended (res : List ResourceType) (nums : List Nat)
    (hres : res.length = 19) :
    (createBoard res nums).1.length = 19 ∧
    (createBoard res nums).2.1.length = 54 ∧
    (createBoard res nums).2.2.length = 72 ∧
    ∀ e ∈ (createBoard res nums).2.2, e.vertex1 = 0 ∧ e.vertex2 = 0 := by
  refine ⟨?_, ?_, ?_, ?_⟩
  · simpa [createBoard, mkHexes_length] using hres
  · simp [createBoard]
  · simp [createBoard]
  · intro e he
    simp only [createBoard, List.mem_map] at he
    obtain ⟨i, _, rfl⟩ := he
    exact ⟨rfl, rfl⟩

/-- C9 witness: the amended statement evaluated on the unshuffled fixed
tile multiset. -/
theorem c9_board_counts_amended_witness :
    (createBoard fixedResources fixedNumberTokens).1.length = 19 ∧
    (createBoard fixedResources fixedNumberTokens).2.1.length = 54 ∧
    (createBoard fixedResources fixedNumberTokens).2.2.length = 72 ∧
    ∀ e ∈ (createBoard fixedResources fixedNumberTokens).2.2, e.vertex1 = 0 ∧ e.vertex2 = 0 :=
  c9_board_counts_amended fixedResources fixedNumberTokens (by decide)

/-! ### C8 — port assignment with too few border edges -/

/-- Fixture for C8: a tiny state with a single eligible border edge. -/
def c8State : GameState :=
  { baseState with
      vertices := [⟨0, none, none⟩, ⟨1, none, none⟩],
      edges := [⟨0, 0, 1, none, none⟩] }

/-- C8 counterexample: with fewer than 9 eligible border edges,
`assignPorts` does not fail or abort — it returns with the state unchanged,
leaving every edge port-free and the game otherwise playable. -/
theorem c8_ports_skipped_counterexample :
    assignPorts [0, 1] id [] c8State = c8State ∧
    (findBorderEdges [0, 1] c8State).length < 9 ∧
    ∀ e ∈ c8State.edges, e.port = none := by
  refine ⟨rfl, by decide, by decide⟩

/-- C8 (amended): whenever fewer than 9 eligible border edges exist,
`assignPorts` is a silent no-op — it logs a console warning and returns the
state unchanged (ports unassigned) instead of aborting board construction. -/
theorem c8_ports_skip_leaves_state (borderVerts : List Nat)
    (sortPerim : List Nat → List Nat) (portTypes : List Port) (s : GameState)
    (h : (findBorderEdges borderVerts s).length < 9) :
    assignPorts borderVerts sortPerim portTypes s = s := by
  simp [assignPorts, h]

/-- C8 witness: the no-op instantiated at the one-border-edge fixture. -/
theorem c8_ports_skip_leaves_state_witness :
    assignPorts [0, 1] id [] c8State = c8State :=
  c8_ports_skip_leaves_state [0, 1] id [] c8State (by decide)

/-! ### C1 — resource distribution and the bank -/

/-- `creditFirst` updates exactly the first player of the matching colour. -/
theorem creditFirst_eq_set :
    ∀ (ps : List Player) (c : PlayerColor) (r : ResourceType) (a : Int) (i : Nat),
    i < ps.length →
    (ps.getD i defaultPlayer).color = c →
    (∀ k, k < i → (ps.getD k defaultPlayer).color ≠ c) →
    creditFirst c r a ps = ps.set i
      ({ ps.getD i defaultPlayer with
         resources := (ps.getD i defaultPlayer).resources.set r
           ((ps.getD i defaultPlayer).resources.get r + a) }) := by
  intro ps
  induction ps with
  | nil => intro c r a i hi; simp at hi
  | cons p tl ih =>
    intro c r a i hi hcol hfirst
    cases i with
    | zero =>
      simp only [List.getD_cons_zero] at hcol
      simp [creditFirst, hcol]
    | succ n =>
      have hp : p.color ≠ c := by
        have := hfirst 0 (Nat.succ_pos n)
        simpa using this
      simp only [List.getD_cons_succ] at hcol
      simp only [creditFirst, if_neg hp, List.set]
      have := ih c r a n (by simpa using hi) hcol
        (fun k hk => by simpa using hfirst (k + 1) (Nat.succ_lt_succ hk))
      rw [this]
      simp [List.getD_cons_succ]

/-- `distStep` touches only the players field. -/
theorem distStep_bank (hex : Hex) (st : GameState) (vid : Nat) :
    (distStep hex st vid).bank = st.bank := by
  simp only [distStep]
  rcases (st.vertices.getD vid defaultVertex).building with _ | b <;>
    rcases (st.vertices.getD vid defaultVertex).playerColor with _ | pc <;>
    simp <;> split <;> rfl

/-- `distStep` leaves the hexes unchanged. -/
theorem distStep_hexes (hex : Hex) (st : GameState) (vid : Nat) :
    (distStep hex st vid).hexes = st.hexes := by
  simp only [distStep]
  rcases (st.vertices.getD vid defaultVertex).building with _ | b <;>
    rcases (st.vertices.getD vid defaultVertex).playerColor with _ | pc <;>
    simp <;> split <;> rfl

/-- Resource distribution never touches the bank. -/
theorem distributeResources_bank (adj : Nat → List Nat) (roll : Nat) (s : GameState) :
    (distributeResources adj roll s).bank = s.bank := by
  simp only [distributeResources]
  exact foldl_preserve (fun gs => gs.bank) _
    (fun st hex => foldl_preserve (fun gs => gs.bank) _ (distStep_bank hex) _ st) _ s

/-- Resource distribution never touches the hexes. -/
theorem distributeResources_hexes (adj : Nat → List Nat) (roll : Nat) (s : GameState) :
    (distributeResources adj roll s).hexes = s.hexes := by
  simp only [distributeResources]
  exact foldl_preserve (fun gs => gs.hexes) _
    (fun st hex => foldl_preserve (fun gs => gs.hexes) _ (distStep_hexes hex) _ st) _ s

/-- C1 (amended): the per-building credits are as claimed — 1 unit to the
owner for a settlement, 2 for a city, at every matching robber-free hex —
but the bank is never debited: `distributeResources` does not modify the
bank at all, and no bank-capacity skip exists.  The second conjunct settles
the credit at any state with a single matching hex and a single incident
built vertex, for the first player of the building's colour. -/
theorem c1_distribution_credits_bank_unchanged :
    (∀ (adj : Nat → List Nat) (roll : Nat) (s : GameState),
      (distributeResources adj roll s).bank = s.bank) ∧
    (∀ (adj : Nat → List Nat) (roll : Nat) (s : GameState) (hx : Hex) (vid : Nat)
       (b : Building) (pc : PlayerColor) (i : Nat),
      s.hexes.filter (fun h => decide (h.numberToken = some roll ∧ h.hasRobber = false)) = [hx] →
      adj hx.id = [vid] →
      (s.vertices.getD vid defaultVertex).building = some b →
      (s.vertices.getD vid defaultVertex).playerColor = some pc →
      hx.resourceType ≠ .desert →
      i < s.players.length →
      (s.players.getD i defaultPlayer).color = pc →
      (∀ k, k < i → (s.players.getD k defaultPlayer).color ≠ pc) →
      (((distributeResources adj roll s).players.getD i defaultPlayer).resources.get hx.resourceType
        = ((s.players.getD i defaultPlayer).resources.get hx.resourceType
           + (if b = Building.city then 2 else 1)) ∧
       ∀ j, j ≠ i → (distributeResources adj roll s).players.getD j defaultPlayer
         = s.players.getD j defaultPlayer)) := by
  constructor
  · exact distributeResources_bank
  · intro adj roll s hx vid b pc i hMatch hAdj hb hc hr hi hcol hfirst
    have hres : distributeResources adj roll s =
        { s with players := creditFirst pc hx.resourceType (if b = Building.city then 2 else 1) s.players } := by
      simp only [distributeResources, hMatch, List.foldl_cons, List.foldl_nil,
        distHex, hAdj, distStep, hb, hc]
      simp [hr]
    rw [hres]
    have hset := creditFirst_eq_set s.players pc hx.resourceType
      (if b = Building.city then 2 else 1) i hi hcol hfirst
    constructor
    · simp only [hset]
      rw [getD_set_self _ _ _ _ hi]
      exact ResCount.get_set_self _ _ _ hr
    · intro j hj
      simp only [hset]
      exact getD_set_ne _ _ _ (fun h => hj h.symm)

/-- Fixture for C1: one wood hex with token 8, no robber, and a single
incident vertex holding a red building. -/
def c1State : GameState :=
  { baseState with
      hexes := [⟨0, .wood, some 8, false⟩],
      vertices := [⟨0, some .settlement, some .red⟩] }

/-- The geometric incidence for the C1 fixture: hex 0 touches vertex 0. -/
def c1Adj : Nat → List Nat := fun h => if h = 0 then [0] else []

/-- C1 counterexample: on the single-hex fixture, rolling the hex's token
credits the settlement owner 1 wood, but the bank's wood count is unchanged
(76 before and after) — the claimed matching bank debit never happens. -/
theorem c1_bank_not_debited_counterexample :
    ((distributeResources c1Adj 8 c1State).players.getD 0 defaultPlayer).resources.get .wood = 1 ∧
    (distributeResources c1Adj 8 c1State).bank.get .wood = 76 ∧
    c1State.bank.get .wood = 76 := by
  refine ⟨by decide, by decide, by decide⟩

/-- C1 witness: the amended credit statement applied at the fixture, for the
settlement (credit 1) case. -/
theorem c1_distribution_credits_bank_unchanged_witness :
    ((distributeResources c1Adj 8 c1State).players.getD 0 defaultPlayer).resources.get
        ResourceType.wood
      = ((c1State.players.getD 0 defaultPlayer).resources.get ResourceType.wood + 1) ∧
    (distributeResources c1Adj 8 c1State).bank = c1State.bank := by
  constructor
  · have h := (c1_distribution_credits_bank_unchanged.2 c1Adj 8 c1State
      ⟨0, .wood, some 8, false⟩ 0 .settlement .red 0
      (by decide) (by decide) (by decide) (by decide) (by decide) (by decide)
      (by decide) (fun k hk => absurd hk (by omega))).1
    simpa using h
  · exact c1_distribution_credits_bank_unchanged.1 c1Adj 8 c1State

/-! ### Preservation lemmas for the rescoring and build operations -/

/-- Longest-road rescoring only touches players and the longest-road
fields: the phase is preserved. -/
theorem updateLongestRoad_phase (s : GameState) :
    (updateLongestRoad s).phase = s.phase := by
  simp only [updateLongestRoad]
  repeat' split
  all_goals rfl

/-- Longest-road rescoring preserves the edges. -/
theorem updateLongestRoad_edges (s : GameState) :
    (updateLongestRoad s).edges = s.edges := by
  simp only [updateLongestRoad]
  repeat' split
  all_goals rfl

/-- Longest-road rescoring preserves the hexes. -/
theorem updateLongestRoad_hexes (s : GameState) :
    (updateLongestRoad s).hexes = s.hexes := by
  simp only [updateLongestRoad]
  repeat' split
  all_goals rfl

/-- A settlement build never changes the phase (on failure the state is
returned unchanged; on success the mutation touches vertices and players
only). -/
theorem buildSettlement_phase (v p : Nat) (s : GameState) :
    (buildSettlement v p s).2.phase = s.phase := by
  simp only [buildSettlement]
  repeat' split
  all_goals rfl

/-- A city build never changes the phase. -/
theorem buildCity_phase (v p : Nat) (s : GameState) :
    (buildCity v p s).2.phase = s.phase := by
  simp only [buildCity]
  repeat' split
  all_goals rfl

/-- A road build never changes the phase (including through the rescoring). -/
theorem buildRoadNormal_phase (e p : Nat) (s : GameState) :
    (buildRoadNormal e p s).2.phase = s.phase := by
  simp only [buildRoadNormal]
  repeat' split
  all_goals simp [updateLongestRoad_phase]

/-! ### C4 — reaching 10 VP and the game-over phase -/

/-- Fixture for C4: player 0 holds 9 VP and a settlement's cost; vertices 0
and 1 are empty and joined by the only edge. -/
def c4State : GameState :=
  { baseState with
      players := [{ createPlayer 0 .red with victoryPoints := 9, resources := ⟨1, 1, 1, 1, 0⟩ },
                  createPlayer 1 .blue, createPlayer 2 .orange, createPlayer 3 .white],
      vertices := [⟨0, none, none⟩, ⟨1, none, none⟩],
      edges := [⟨0, 0, 1, none, none⟩] }

/-- Fixture for the C4 witness: seat 3 about to hand the turn to the
10-VP player 0. -/
def c4wState : GameState :=
  { c4State with
      currentPlayerIndex := 3,
      players := [{ createPlayer 0 .red with victoryPoints := 10 },
                  createPlayer 1 .blue, createPlayer 2 .orange, createPlayer 3 .white] }

/-- C4 counterexample: building a settlement at 9 VP yields 10 VP but the
phase stays the main phase (no game-over transition), and a build command
submitted while the phase is game-over still succeeds — builds are not
rejected in the game-over phase. -/
theorem c4_no_gameover_on_build :
    (buildSettlement 0 0 c4State).1 = true ∧
    ((buildSettlement 0 0 c4State).2.players.getD 0 defaultPlayer).victoryPoints = 10 ∧
    (buildSettlement 0 0 c4State).2.phase = GamePhase.mainPhase ∧
    GamePhase.mainPhase ≠ GamePhase.gameOver ∧
    (buildSettlement 0 0 { c4State with phase := GamePhase.gameOver }).1 = true := by
  refine ⟨by decide, by decide, by decide, by decide, by decide⟩

/-- C4 (amended): a successful build adds its victory point but never
changes the phase; the game-over phase is entered only by `endTurn`, and
there by testing the player who has just become current (the next seat), not
the builder; build commands never consult the phase, so they are not
rejected during game-over. -/
theorem c4_gameover_only_via_endTurn :
    (∀ v p s, (buildSettlement v p s).2.phase = s.phase) ∧
    (∀ v p s, (buildCity v p s).2.phase = s.phase) ∧
    (∀ e p s, (buildRoadNormal e p s).2.phase = s.phase) ∧
    (∀ v p s, (buildSettlement v p s).1 = true →
      ((buildSettlement v p s).2.players.getD p defaultPlayer).victoryPoints
        = (s.players.getD p defaultPlayer).victoryPoints + 1) ∧
    (∀ s : GameState, (endTurn s).phase =
      if 10 ≤ (s.players.getD ((s.currentPlayerIndex + 1) % 4) defaultPlayer).victoryPoints
      then GamePhase.gameOver else GamePhase.rollingDice) := by
  refine ⟨buildSettlement_phase, buildCity_phase, buildRoadNormal_phase, ?_, ?_⟩
  · intro v p s hsucc
    simp only [buildSettlement] at hsucc ⊢
    split at hsucc
    case isFalse => simp at hsucc
    case isTrue hb =>
      split at hsucc
      case isTrue => simp at hsucc
      case isFalse h1 =>
        split at hsucc
        case isTrue => simp at hsucc
        case isFalse h2 =>
          split at hsucc
          case isTrue => simp at hsucc
          case isFalse h3 =>
            rw [if_pos hb, if_neg h1, if_neg h2, if_neg h3]
            simp only []
            rw [getD_set_self _ _ _ _ hb.1]
            simp [payForSettlement]
  · intro s
    simp only [endTurn]
    split <;> simp_all

/-- C4 witness: the amended statement applied at the fixtures — the
successful 9→10 VP build keeps the phase, and `endTurn` from seat 3 with a
10-VP player 0 enters game-over. -/
theorem c4_gameover_only_via_endTurn_witness :
    (buildSettlement 0 0 c4State).2.phase = c4State.phase ∧
    ((buildSettlement 0 0 c4State).2.players.getD 0 defaultPlayer).victoryPoints
      = (c4State.players.getD 0 defaultPlayer).victoryPoints + 1 ∧
    (endTurn c4wState).phase =
      (if 10 ≤ (c4wState.players.getD ((c4wState.currentPlayerIndex + 1) % 4) defaultPlayer).victoryPoints
       then GamePhase.gameOver else GamePhase.rollingDice) :=
  ⟨c4_gameover_only_via_endTurn.1 0 0 c4State,
   c4_gameover_only_via_endTurn.2.2.2.1 0 0 c4State (by decide),
   c4_gameover_only_via_endTurn.2.2.2.2 c4wState⟩

/-! ### C3 — longest-road bonus retention -/

/-- Fixture for C3: player 0 (red) owns a 6-edge chain (having just
extended their road), is the recorded longest-road holder with the
2-VP flag, and sits at 2 victory points. -/
def c3State : GameState :=
  { baseState with
      players := [{ createPlayer 0 .red with victoryPoints := 2, hasLongestRoad := true },
                  createPlayer 1 .blue, createPlayer 2 .orange, createPlayer 3 .white],
      edges := (List.range 6).map (fun i => ⟨i, i, i + 1, some .red, none⟩),
      longestRoadPlayer := some 0,
      longestRoadLength := 6 }

/-- C3 (code bug): rescoring with the incumbent holding the unique maximum
(length 6 ≥ 5) strips 2 VP from the incumbent and clears their
longest-road flag even though the bonus does not transfer — the
`longestRoadPlayer` record still names them.  The claim (and the code's own
tie-goes-to-holder comment) requires the holder's points to be untouched;
the removal step runs outside the transfer branch. -/
theorem c3_holder_stripped_on_rescore :
    calculateLongestRoad c3State 0 = 6 ∧
    (c3State.players.getD 0 defaultPlayer).victoryPoints = 2 ∧
    ((updateLongestRoad c3State).players.getD 0 defaultPlayer).victoryPoints = 0 ∧
    ((updateLongestRoad c3State).players.getD 0 defaultPlayer).hasLongestRoad = false ∧
    (updateLongestRoad c3State).longestRoadPlayer = some 0 := by
  refine ⟨by decide, by decide, by decide, by decide, by decide⟩

/-! ### C6 — initial-placement resource grants -/

/-- The per-hex grant step leaves the hexes unchanged. -/
theorem giveStep_hexes (pid : Nat) (st : GameState) (hid : Nat) :
    (giveStep pid st hid).hexes = st.hexes := by
  simp only [giveStep]
  split
  all_goals rfl

/-- The per-hex grant step preserves the player-list length. -/
theorem giveStep_players_length (pid : Nat) (st : GameState) (hid : Nat) :
    (giveStep pid st hid).players.length = st.players.length := by
  simp only [giveStep]
  split
  all_goals simp

/-- Writing past the end of a list is a no-op. -/
theorem set_of_length_le {α : Type} :
    ∀ (xs : List α) (i : Nat) (a : α), xs.length ≤ i → xs.set i a = xs := by
  intro xs
  induction xs with
  | nil => intro i a _; rfl
  | cons x t ih =>
    intro i a h
    cases i with
    | zero => simp at h
    | succ n => simpa [List.set] using ih n a (by simpa using h)

/-- Counting through the grant fold: the grant adds, for each productive
resource `r`, exactly one unit per listed hex whose resource is `r`, is not
desert, and carries a token. -/
theorem giveFold_resources :
    ∀ (l : List Nat) (s : GameState) (pid : Nat), pid < s.players.length →
    ∀ (r : ResourceType), r ≠ .desert →
    ((l.foldl (giveStep pid) s).players.getD pid defaultPlayer).resources.get r
      = (s.players.getD pid defaultPlayer).resources.get r
        + (l.countP (fun hid =>
            decide ((s.hexes.getD hid defaultHex).resourceType = r ∧
                    (s.hexes.getD hid defaultHex).resourceType ≠ .desert ∧
                    (s.hexes.getD hid defaultHex).numberToken ≠ none))) := by
  intro l
  induction l with
  | nil => intro s pid _ r _; simp
  | cons hid tl ih =>
    intro s pid hp r hr
    rw [List.foldl_cons, List.countP_cons]
    have hps := giveStep_players_length pid s hid
    have hhx := giveStep_hexes pid s hid
    rw [ih (giveStep pid s hid) pid (by rw [hps]; exact hp) r hr, hhx]
    have hstep : ((giveStep pid s hid).players.getD pid defaultPlayer).resources.get r
        = (s.players.getD pid defaultPlayer).resources.get r
          + (if ((s.hexes.getD hid defaultHex).resourceType = r ∧
                 (s.hexes.getD hid defaultHex).resourceType ≠ .desert ∧
                 (s.hexes.getD hid defaultHex).numberToken ≠ none) then (1 : Int) else 0) := by
      by_cases hcond : (s.hexes.getD hid defaultHex).resourceType ≠ .desert ∧
          (s.hexes.getD hid defaultHex).numberToken ≠ none
      · simp only [giveStep, if_pos hcond]
        rw [getD_set_self _ _ _ _ hp]
        by_cases htype : (s.hexes.getD hid defaultHex).resourceType = r
        · rw [if_pos ⟨htype, hcond⟩, htype, ResCount.get_set_self _ _ _ hr]
        · rw [if_neg (fun hcontra => htype hcontra.1),
            ResCount.get_set_ne _ _ (fun h => htype h.symm)]
          omega
      · simp only [giveStep, if_neg hcond]
        rw [if_neg (fun hcontra => hcond ⟨hcontra.2.1, hcontra.2.2⟩)]
        omega
    rw [hstep]
    by_cases hfin : ((s.hexes.getD hid defaultHex).resourceType = r ∧
        (s.hexes.getD hid defaultHex).resourceType ≠ .desert ∧
        (s.hexes.getD hid defaultHex).numberToken ≠ none)
    · rw [if_pos hfin]
      have : (List.countP (fun hid =>
          decide ((s.hexes.getD hid defaultHex).resourceType = r ∧
            (s.hexes.getD hid defaultHex).resourceType ≠ ResourceType.desert ∧
            (s.hexes.getD hid defaultHex).numberToken ≠ none)) tl)
          + (if decide ((s.hexes.getD hid defaultHex).resourceType = r ∧
              (s.hexes.getD hid defaultHex).resourceType ≠ ResourceType.desert ∧
              (s.hexes.getD hid defaultHex).numberToken ≠ none) = true then 1 else 0)
          = (List.countP (fun hid =>
          decide ((s.hexes.getD hid defaultHex).resourceType = r ∧
            (s.hexes.getD hid defaultHex).resourceType ≠ ResourceType.desert ∧
            (s.hexes.getD hid defaultHex).numberToken ≠ none)) tl) + 1 := by
        simp only [decide_eq_true_eq]
        rw [if_pos hfin]
      rw [this]
      push_cast
      ring
    · rw [if_neg hfin]
      have : (if decide ((s.hexes.getD hid defaultHex).resourceType = r ∧
              (s.hexes.getD hid defaultHex).resourceType ≠ ResourceType.desert ∧
              (s.hexes.getD hid defaultHex).numberToken ≠ none) = true then 1 else 0) = 0 := by
        simp only [decide_eq_true_eq]
        rw [if_neg hfin]
      rw [this]
      push_cast
      ring

/-- C6 (confirmed): a successful round-2 initial settlement immediately
grants its placer, for every productive resource `r`, one unit per incident
hex of resource `r` — on boards where every non-desert hex carries a number
token, as `createBoard` guarantees — i.e. one unit of the resource of every
non-desert incident hex; a successful round-1 initial settlement leaves
every player's resource counts unchanged. -/
theorem c6_round2_initial_resources :
    (∀ (adjHexes : Nat → List Nat) (vertexId playerId : Nat) (fs : FullState),
      playerId < fs.gs.players.length →
      fs.gs.initialPlacementRound = 2 →
      (placeInitialSettlement adjHexes vertexId playerId fs).1 = true →
      (∀ h ∈ fs.gs.hexes, h.resourceType ≠ .desert → h.numberToken ≠ none) →
      ∀ r, r ≠ ResourceType.desert →
      ((placeInitialSettlement adjHexes vertexId playerId fs).2.gs.players.getD playerId
          defaultPlayer).resources.get r
        = (fs.gs.players.getD playerId defaultPlayer).resources.get r
          + (adjHexes vertexId).countP (fun hid =>
              decide ((fs.gs.hexes.getD hid defaultHex).resourceType = r))) ∧
    (∀ (adjHexes : Nat → List Nat) (vertexId playerId : Nat) (fs : FullState),
      fs.gs.initialPlacementRound = 1 →
      (placeInitialSettlement adjHexes vertexId playerId fs).1 = true →
      ∀ j, ((placeInitialSettlement adjHexes vertexId playerId fs).2.gs.players.getD j
          defaultPlayer).resources
        = (fs.gs.players.getD j defaultPlayer).resources) := by
  constructor
  · intro adjHexes vertexId playerId fs hp hround hsucc htok r hr
    simp only [placeInitialSettlement] at hsucc ⊢
    split at hsucc
    case isTrue => simp at hsucc
    case isFalse hcan =>
      rw [if_neg hcan, if_pos hround]
      simp only [giveInitialResources]
      rw [giveFold_resources _ _ playerId (by simpa using hp) r hr]
      have hset : ((fs.gs.players.set playerId
          { fs.gs.players.getD playerId defaultPlayer with
            settlements := (fs.gs.players.getD playerId defaultPlayer).settlements + 1,
            victoryPoints := (fs.gs.players.getD playerId defaultPlayer).victoryPoints + 1 }).getD
            playerId defaultPlayer).resources
          = (fs.gs.players.getD playerId defaultPlayer).resources := by
        rw [getD_set_self _ _ _ _ hp]
      simp only [hset]
      have hcnt : List.countP (fun hid =>
          decide ((fs.gs.hexes.getD hid defaultHex).resourceType = r ∧
            (fs.gs.hexes.getD hid defaultHex).resourceType ≠ ResourceType.desert ∧
            (fs.gs.hexes.getD hid defaultHex).numberToken ≠ none)) (adjHexes vertexId)
          = List.countP (fun hid =>
              decide ((fs.gs.hexes.getD hid defaultHex).resourceType = r)) (adjHexes vertexId) := by
        apply List.countP_congr
        intro hid _
        simp only [decide_eq_true_eq]
        constructor
        · intro h
          exact h.1
        · intro h
          by_cases hlt : hid < fs.gs.hexes.length
          · have hmem : fs.gs.hexes.getD hid defaultHex ∈ fs.gs.hexes := by
              rw [List.getD_eq_getElem _ _ hlt]
              exact List.getElem_mem hlt
            have hnd : (fs.gs.hexes.getD hid defaultHex).resourceType ≠ .desert := by
              rw [h]; exact hr
            exact ⟨h, hnd, htok _ hmem hnd⟩
          · exfalso
            rw [List.getD_eq_default _ _ (Nat.le_of_not_lt hlt)] at h
            exact hr (h ▸ rfl)
      rw [hcnt]
  · intro adjHexes vertexId playerId fs hround hsucc j
    simp only [placeInitialSettlement] at hsucc ⊢
    split at hsucc
    case isTrue => simp at hsucc
    case isFalse hcan =>
      rw [if_neg hcan]
      have hne : fs.gs.initialPlacementRound ≠ 2 := by rw [hround]; decide
      simp only [if_neg hne]
      by_cases hj : j = playerId
      · subst hj
        by_cases hlt : j < fs.gs.players.length
        · rw [getD_set_self _ _ _ _ hlt]
        · rw [set_of_length_le _ _ _ (Nat.le_of_not_lt hlt)]
      · rw [getD_set_ne _ _ _ (fun h => hj h.symm)]

/-- Fixture for the C6 witness: a round-2 setup state with two wood hexes
and the desert incident (per `c6Adj`) to the placement vertex 0. -/
def c6State : GameState :=
  { baseState with
      phase := .initialPlacement,
      initialPlacementPhase := true,
      initialPlacementRound := 2,
      hexes := [⟨0, .wood, some 8, false⟩, ⟨1, .desert, none, true⟩, ⟨2, .wood, some 5, false⟩],
      vertices := [⟨0, none, none⟩, ⟨1, none, none⟩],
      edges := [⟨0, 0, 1, none, none⟩] }

/-- C6 witness companion: player 0 already placed one settlement and road
in round 1. -/
def c6Full : FullState :=
  { gs := c6State, placements := fun k => if k = 0 then ⟨1, 1⟩ else ⟨0, 0⟩ }

/-- C6 witness companion: vertex 0 touches all three fixture hexes. -/
def c6Adj : Nat → List Nat := fun v => if v = 0 then [0, 1, 2] else []

/-- C6 witness: the round-2 grant applied at the fixture — the placer gains
one wood per incident wood hex (the incident desert grants nothing). -/
theorem c6_round2_initial_resources_witness :
    ((placeInitialSettlement c6Adj 0 0 c6Full).2.gs.players.getD 0
        defaultPlayer).resources.get ResourceType.wood
      = (c6Full.gs.players.getD 0 defaultPlayer).resources.get ResourceType.wood
        + (c6Adj 0).countP (fun hid =>
            decide ((c6Full.gs.hexes.getD hid defaultHex).resourceType = ResourceType.wood)) :=
  c6_round2_initial_resources.1 c6Adj 0 0 c6Full (by decide) (by decide) (by decide)
    (by decide) ResourceType.wood (by decide)

/-! ### C2 — the robber-presence invariant -/

/-- Discarding resources never touches the hexes. -/
theorem discardResources_hexes (σ : List ResourceType → List ResourceType)
    (i count : Nat) (s : GameState) :
    (discardResources σ i count s).hexes = s.hexes := by
  simp only [discardResources]
  refine foldl_preserve (fun gs => gs.hexes) _ ?_ _ s
  intro st r
  rfl

/-- The discard-on-7 pass never touches the hexes. -/
theorem handleRobberActivation_hexes (σ : Nat → List ResourceType → List ResourceType)
    (s : GameState) :
    (handleRobberActivation σ s).hexes = s.hexes := by
  simp only [handleRobberActivation]
  refine foldl_preserve (fun gs => gs.hexes) _ (fun st i => ?_) _ s
  dsimp only
  split
  · exact discardResources_hexes _ _ _ _
  · rfl

/-- Rolling the dice never touches the hexes. -/
theorem rollDice_hexes (d1 d2 : Nat) (adj : Nat → List Nat)
    (σ : Nat → List ResourceType → List ResourceType) (s : GameState) :
    (rollDice d1 d2 adj σ s).hexes = s.hexes := by
  simp only [rollDice]
  split
  · rfl
  · split
    · rw [show ∀ t : GameState, ({ t with phase := GamePhase.mainPhase } : GameState).hexes = t.hexes from fun t => rfl]
      rw [handleRobberActivation_hexes]
    · rw [show ∀ t : GameState, ({ t with phase := GamePhase.mainPhase } : GameState).hexes = t.hexes from fun t => rfl]
      rw [distributeResources_hexes]

/-- A settlement build never touches the hexes. -/
theorem buildSettlement_hexes (v p : Nat) (s : GameState) :
    (buildSettlement v p s).2.hexes = s.hexes := by
  simp only [buildSettlement]
  repeat' split
  all_goals rfl

/-- A city build never touches the hexes. -/
theorem buildCity_hexes (v p : Nat) (s : GameState) :
    (buildCity v p s).2.hexes = s.hexes := by
  simp only [buildCity]
  repeat' split
  all_goals rfl

/-- A road build never touches the hexes. -/
theorem buildRoadNormal_hexes (e p : Nat) (s : GameState) :
    (buildRoadNormal e p s).2.hexes = s.hexes := by
  simp only [buildRoadNormal]
  repeat' split
  all_goals simp [updateLongestRoad_hexes]

/-- The initial-resource grant never touches the hexes. -/
theorem giveInitialResources_hexes (adjHexes : Nat → List Nat) (v p : Nat) (s : GameState) :
    (giveInitialResources adjHexes v p s).hexes = s.hexes := by
  simp only [giveInitialResources]
  exact foldl_preserve (fun gs => gs.hexes) _ (giveStep_hexes p) _ s

/-- An initial settlement placement never touches the hexes. -/
theorem placeInitialSettlement_hexes (adjHexes : Nat → List Nat) (v p : Nat) (fs : FullState) :
    (placeInitialSettlement adjHexes v p fs).2.gs.hexes = fs.gs.hexes := by
  simp only [placeInitialSettlement]
  repeat' split
  all_goals simp [giveInitialResources_hexes]

/-- An initial road placement never touches the hexes. -/
theorem placeInitialRoad_hexes (e p : Nat) (fs : FullState) :
    (placeInitialRoad e p fs).2.gs.hexes = fs.gs.hexes := by
  simp only [placeInitialRoad]
  repeat' split
  all_goals rfl

/-- Advancing the setup seat never touches the hexes. -/
theorem advanceToNextPlayer_hexes (fs : FullState) :
    (advanceToNextPlayer fs).gs.hexes = fs.gs.hexes := by
  simp only [advanceToNextPlayer]
  repeat' split
  all_goals rfl

/-- The settlement entry point never touches the hexes. -/
theorem buildSettlementF_hexes (v p : Nat) (adjHexes : Nat → List Nat) (fs : FullState) :
    (buildSettlementF v p adjHexes fs).2.gs.hexes = fs.gs.hexes := by
  simp only [buildSettlementF]
  split
  · exact placeInitialSettlement_hexes _ _ _ _
  · exact buildSettlement_hexes _ _ _

/-- The city entry point never touches the hexes. -/
theorem buildCityF_hexes (v p : Nat) (fs : FullState) :
    (buildCityF v p fs).2.gs.hexes = fs.gs.hexes := by
  simp only [buildCityF]
  exact buildCity_hexes _ _ _

/-- The road entry point never touches the hexes. -/
theorem buildRoadF_hexes (e p : Nat) (vopt : Option Nat) (fs : FullState) :
    (buildRoadF e p vopt fs).2.gs.hexes = fs.gs.hexes := by
  simp only [buildRoadF]
  repeat' split
  all_goals simp [advanceToNextPlayer_hexes, placeInitialRoad_hexes, buildRoadNormal_hexes]

/-- Ending the turn never touches the hexes. -/
theorem endTurn_hexes (s : GameState) : (endTurn s).hexes = s.hexes := by
  simp only [endTurn]
  split
  all_goals rfl

/-- Rewriting one list slot adds at most one positive to any count. -/
theorem countP_set_le {α : Type} (p : α → Bool) :
    ∀ (l : List α) (i : Nat) (a : α), (l.set i a).countP p ≤ l.countP p + 1 := by
  intro l
  induction l with
  | nil => intro i a; simp [List.set]
  | cons x t ih =>
    intro i a
    cases i with
    | zero =>
      simp only [List.set, List.countP_cons]
      cases hpa : p a <;> cases hpx : p x <;> simp <;> omega
    | succ n =>
      simp only [List.set, List.countP_cons]
      have := ih n a
      omega

/-- After `moveRobber` at most one hex carries the robber: the flag is
cleared everywhere and re-set on at most the single target hex. -/
theorem moveRobber_robbers (hexId : Nat) (s : GameState) :
    countRobbers (moveRobber hexId s) ≤ 1 := by
  have hclear : (s.hexes.map (fun h => { h with hasRobber := false })).countP
      (fun h => h.hasRobber) = 0 := by
    rw [List.countP_eq_zero]
    intro a ha
    rw [List.mem_map] at ha
    obtain ⟨b, _, rfl⟩ := ha
    simp
  simp only [moveRobber, countRobbers]
  split
  · rename_i target heq
    split
    · have hle := countP_set_le (fun h : Hex => h.hasRobber)
        (s.hexes.map (fun h => { h with hasRobber := false })) hexId
        { target with hasRobber := true }
      rw [hclear] at hle
      simpa using hle
    · simp [hclear]
  · simp [hclear]

/-- C2 (amended): in every reachable state at most one hex carries the
robber; exactly one at initialisation (the shuffled desert), but a
`moveRobber` aimed at the desert hex or an out-of-range id clears the flag
everywhere without re-setting it, leaving zero robbers (see the
counterexample), so "exactly one" does not hold. -/
theorem c2_at_most_one_robber (fs : FullState) (h : Reachable fs) :
    countRobbers fs.gs ≤ 1 := by
  induction h with
  | init res nums hres hnums =>
    have : countRobbers (initialFull res nums).gs
        = res.countP (fun r => decide (r = ResourceType.desert)) := by
      simp only [initialFull, initializeGame, createBoard, countRobbers]
      exact mkHexes_robbers res nums 0
    rw [this, hres.countP_eq]
    decide
  | roll d1 d2 adj σ hd1 hd2 hσ h ih =>
    simpa [countRobbers, liftG, rollDice_hexes] using ih
  | buildS v p adjHexes h ih =>
    simpa [countRobbers, buildSettlementF_hexes] using ih
  | buildC v p h ih =>
    simpa [countRobbers, buildCityF_hexes] using ih
  | buildR e p vopt h ih =>
    simpa [countRobbers, buildRoadF_hexes] using ih
  | robber hexId h ih =>
    exact moveRobber_robbers hexId _
  | endT h ih =>
    simpa [countRobbers, liftG, endTurn_hexes] using ih

/-- C2 counterexample: the state reached from initialisation (identity
shuffles, desert on hex 18) by the public `moveRobber` command aimed at the
desert hex is reachable yet has zero robber-flagged hexes — "exactly one
hex holds the robber" fails. -/
theorem c2_robber_vanishes_on_desert_move :
    Reachable (liftG (moveRobber 18) (initialFull fixedResources fixedNumberTokens)) ∧
    countRobbers (liftG (moveRobber 18) (initialFull fixedResources fixedNumberTokens)).gs = 0 := by
  constructor
  · exact Reachable.robber 18 (Reachable.init _ _ (List.Perm.refl _) (List.Perm.refl _))
  · decide

/-- C2 witness: the invariant applied at the freshly initialised game. -/
theorem c2_at_most_one_robber_witness :
    countRobbers (initialFull fixedResources fixedNumberTokens).gs ≤ 1 :=
  c2_at_most_one_robber (initialFull fixedResources fixedNumberTokens)
    (Reachable.init _ _ (List.Perm.refl _) (List.Perm.refl _))

/-! ### C7 — longest-road calculation: generic lemmas -/

/-- Membership in the incident-edge scan. -/
theorem mem_getEdgesConnectedToVertex (edges : List Edge) (v j : Nat) :
    j ∈ getEdgesConnectedToVertex edges v ↔
    j < edges.length ∧ ((edges.getD j defaultEdge).vertex1 = v ∨
      (edges.getD j defaultEdge).vertex2 = v) := by
  simp only [getEdgesConnectedToVertex, List.mem_filter, List.mem_range, decide_eq_true_eq]

/-- Upper bound through a running-maximum fold. -/
theorem foldl_max_le (f : Nat → Nat) (B : Nat) :
    ∀ (l : List Nat) (ini : Nat), ini ≤ B → (∀ x ∈ l, f x ≤ B) →
    l.foldl (fun m n => max m (f n)) ini ≤ B := by
  intro l
  induction l with
  | nil => intro ini h _; exact h
  | cons x t ih =>
    intro ini hini hall
    rw [List.foldl_cons]
    exact ih _ (max_le hini (hall x (List.mem_cons_self x t)))
      (fun y hy => hall y (List.mem_cons_of_mem x hy))

/-- A running-maximum fold never drops below its seed. -/
theorem foldl_max_ge_init (f : Nat → Nat) :
    ∀ (l : List Nat) (ini : Nat), ini ≤ l.foldl (fun m n => max m (f n)) ini := by
  intro l
  induction l with
  | nil => intro ini; exact Nat.le_refl _
  | cons x t ih =>
    intro ini
    rw [List.foldl_cons]
    exact le_trans (le_max_left _ _) (ih _)

/-- A running-maximum fold dominates every listed value. -/
theorem foldl_max_ge_of_mem (f : Nat → Nat) :
    ∀ (l : List Nat) (ini x : Nat), x ∈ l →
    f x ≤ l.foldl (fun m n => max m (f n)) ini := by
  intro l
  induction l with
  | nil => intro ini x hx; exact absurd hx (List.not_mem_nil x)
  | cons y t ih =>
    intro ini x hx
    rw [List.foldl_cons]
    rcases List.mem_cons.mp hx with rfl | hx
    · exact le_trans (le_max_right _ _) (foldl_max_ge_init f t _)
    · exact ih _ x hx

/-- A running-maximum fold over a nonempty constant list. -/
theorem foldl_max_all_eq (f : Nat → Nat) :
    ∀ (l : List Nat) (ini x : Nat), (∀ y ∈ l, y = x) → x ∈ l →
    l.foldl (fun m n => max m (f n)) ini = max ini (f x) := by
  intro l
  induction l with
  | nil => intro ini x _ hx; exact absurd hx (List.not_mem_nil x)
  | cons y t ih =>
    intro ini x hall hx
    have hy : y = x := hall y (List.mem_cons_self y t)
    subst hy
    rw [List.foldl_cons]
    cases t with
    | nil => rfl
    | cons z t2 =>
      have hz : z = y := hall z (List.mem_cons_of_mem y (List.mem_cons_self z t2))
      have hall2 : ∀ w ∈ z :: t2, w = y := fun w hw => hall w (List.mem_cons_of_mem y hw)
      have hmem : y ∈ z :: t2 := hz ▸ List.mem_cons_self z t2
      rw [ih (max ini (f y)) y hall2 hmem, max_assoc, max_self]

/-- Filtering with a stronger predicate yields at most as many elements. -/
theorem filter_length_mono {α : Type} (p q : α → Bool)
    (himp : ∀ x, p x = true → q x = true) :
    ∀ l : List α, (l.filter p).length ≤ (l.filter q).length := by
  intro l
  induction l with
  | nil => exact Nat.le_refl _
  | cons x t ih =>
    cases hp : p x with
    | false =>
      rw [List.filter_cons_of_neg (by rw [hp]; decide)]
      cases hq : q x with
      | false =>
        rw [List.filter_cons_of_neg (by rw [hq]; decide)]
        exact ih
      | true =>
        rw [List.filter_cons_of_pos hq, List.length_cons]
        exact Nat.le_succ_of_le ih
    | true =>
      have hq : q x = true := himp x hp
      rw [List.filter_cons_of_pos hp, List.filter_cons_of_pos hq,
        List.length_cons, List.length_cons]
      exact Nat.succ_le_succ ih

/-- Filtering with a strictly stronger predicate that loses a listed
element yields strictly fewer elements. -/
theorem filter_length_lt {α : Type} (p q : α → Bool)
    (himp : ∀ x, p x = true → q x = true) (a : α) :
    ∀ l : List α, a ∈ l → q a = true → p a = false →
    (l.filter p).length < (l.filter q).length := by
  intro l
  induction l with
  | nil => intro h; exact absurd h (List.not_mem_nil a)
  | cons x t ih =>
    intro hmem hqa hpa
    rcases List.mem_cons.mp hmem with rfl | hmem2
    · rw [List.filter_cons_of_neg (by rw [hpa]; decide), List.filter_cons_of_pos hqa,
        List.length_cons]
      exact Nat.lt_succ_of_le (filter_length_mono p q himp t)
    · cases hp : p x with
      | false =>
        rw [List.filter_cons_of_neg (by rw [hp]; decide)]
        cases hq : q x with
        | false =>
          rw [List.filter_cons_of_neg (by rw [hq]; decide)]
          exact ih hmem2 hqa hpa
        | true =>
          rw [List.filter_cons_of_pos hq, List.length_cons]
          exact Nat.lt_succ_of_lt (ih hmem2 hqa hpa)
      | true =>
        have hq : q x = true := himp x hp
        rw [List.filter_cons_of_pos hp, List.filter_cons_of_pos hq,
          List.length_cons, List.length_cons]
        exact Nat.succ_lt_succ (ih hmem2 hqa hpa)

/-- Edge index `i` is a road of colour `c` joining vertices `a` and `b`
(in either orientation). -/
def chainLink (edges : List Edge) (c : PlayerColor) (i a b : Nat) : Prop :=
  i < edges.length ∧ (edges.getD i defaultEdge).road = some c ∧
  (((edges.getD i defaultEdge).vertex1 = a ∧ (edges.getD i defaultEdge).vertex2 = b) ∨
   ((edges.getD i defaultEdge).vertex1 = b ∧ (edges.getD i defaultEdge).vertex2 = a))

/-- The edge-index list `es` is a straight chain of colour `c` through the
vertex list `ws` (consecutive vertices joined by consecutive edges). -/
def RoadChain (edges : List Edge) (c : PlayerColor) : List Nat → List Nat → Prop
  | [], ws => ws.length = 1
  | i :: is2, ws =>
    match ws with
    | a :: b :: ws2 => chainLink edges c i a b ∧ RoadChain edges c is2 (b :: ws2)
    | _ => False

/-- Every edge of a chain is an in-range index. -/
theorem RoadChain_mem_lt (edges : List Edge) (c : PlayerColor) :
    ∀ (es ws : List Nat), RoadChain edges c es ws → ∀ j ∈ es, j < edges.length := by
  intro es
  induction es with
  | nil => intro ws _ j hj; exact absurd hj (List.not_mem_nil j)
  | cons i is2 ih =>
    intro ws h j hj
    match ws with
    | [] => exact absurd h (by simp [RoadChain])
    | [a] => exact absurd h (by simp [RoadChain])
    | a :: b :: ws2 =>
      simp only [RoadChain] at h
      rcases List.mem_cons.mp hj with rfl | hj2
      · exact h.1.1
      · exact ih (b :: ws2) h.2 j hj2

/-- Every edge of a chain carries the player's road. -/
theorem RoadChain_road (edges : List Edge) (c : PlayerColor) :
    ∀ (es ws : List Nat), RoadChain edges c es ws →
    ∀ j ∈ es, (edges.getD j defaultEdge).road = some c := by
  intro es
  induction es with
  | nil => intro ws _ j hj; exact absurd hj (List.not_mem_nil j)
  | cons i is2 ih =>
    intro ws h j hj
    match ws with
    | [] => exact absurd h (by simp [RoadChain])
    | [a] => exact absurd h (by simp [RoadChain])
    | a :: b :: ws2 =>
      simp only [RoadChain] at h
      rcases List.mem_cons.mp hj with rfl | hj2
      · exact h.1.2.1
      · exact ih (b :: ws2) h.2 j hj2

/-- Every endpoint of a chain edge lies on the chain's vertex list. -/
theorem RoadChain_touch (edges : List Edge) (c : PlayerColor) :
    ∀ (es ws : List Nat), RoadChain edges c es ws → ∀ j ∈ es, ∀ v : Nat,
    ((edges.getD j defaultEdge).vertex1 = v ∨ (edges.getD j defaultEdge).vertex2 = v) →
    v ∈ ws := by
  intro es
  induction es with
  | nil => intro ws _ j hj; exact absurd hj (List.not_mem_nil j)
  | cons i is2 ih =>
    intro ws h j hj v hv
    match ws with
    | [] => exact absurd h (by simp [RoadChain])
    | [a] => exact absurd h (by simp [RoadChain])
    | a :: b :: ws2 =>
      simp only [RoadChain] at h
      rcases List.mem_cons.mp hj with rfl | hj2
      · rcases h.1.2.2 with ⟨h1, h2⟩ | ⟨h1, h2⟩ <;> rcases hv with rfl | rfl
        · rw [h1]
          exact List.mem_cons_self a (b :: ws2)
        · rw [h2]
          exact List.mem_cons_of_mem a (List.mem_cons_self b ws2)
        · rw [h1]
          exact List.mem_cons_of_mem a (List.mem_cons_self b ws2)
        · rw [h2]
          exact List.mem_cons_self a (b :: ws2)
      · exact List.mem_cons_of_mem a (ih (b :: ws2) h.2 j hj2 v hv)

/-- Count of the player's roads not yet visited (the quantity the DFS
recursion strictly decreases). -/
def ownedLeft (edges : List Edge) (c : PlayerColor) (visited : List Nat) : Nat :=
  ((List.range edges.length).filter (fun j =>
    decide ((edges.getD j defaultEdge).road = some c ∧ j ∉ visited))).length

/-- The DFS result is bounded by the number of unvisited owned edges. -/
theorem dfs_le_ownedLeft (edges : List Edge) (c : PlayerColor) :
    ∀ (fuel : Nat) (i : Nat) (visited : List Nat),
    (edges.getD i defaultEdge).road = some c → i < edges.length → i ∉ visited →
    findLongestPathFromEdge edges c fuel i visited ≤ ownedLeft edges c visited := by
  intro fuel
  induction fuel with
  | zero =>
    intro i visited hroad hi hnv
    have hmem : i ∈ (List.range edges.length).filter (fun j =>
        decide ((edges.getD j defaultEdge).road = some c ∧ j ∉ visited)) := by
      rw [List.mem_filter, List.mem_range, decide_eq_true_eq]
      exact ⟨hi, hroad, hnv⟩
    exact List.length_pos_of_mem hmem
  | succ f ih =>
    intro i visited hroad hi hnv
    have hini : 1 ≤ ownedLeft edges c visited := by
      have hmem : i ∈ (List.range edges.length).filter (fun j =>
          decide ((edges.getD j defaultEdge).road = some c ∧ j ∉ visited)) := by
        rw [List.mem_filter, List.mem_range, decide_eq_true_eq]
        exact ⟨hi, hroad, hnv⟩
      exact List.length_pos_of_mem hmem
    simp only [findLongestPathFromEdge]
    apply foldl_max_le _ _ _ _ hini
    intro nid hnid
    rw [List.mem_filter] at hnid
    obtain ⟨hconn, hpred⟩ := hnid
    rw [decide_eq_true_eq] at hpred
    obtain ⟨hne, hnvis, hroad2⟩ := hpred
    have hlt : nid < edges.length := by
      rcases List.mem_append.mp hconn with hmem | hmem <;>
        exact ((mem_getEdgesConnectedToVertex edges _ nid).mp hmem).1
    have hrec := ih nid (i :: visited) hroad2 hlt hnvis
    have hstrict : ownedLeft edges c (i :: visited) < ownedLeft edges c visited := by
      apply filter_length_lt _ _ ?_ i _ (List.mem_range.mpr hi) ?_ ?_
      · intro x hx
        rw [decide_eq_true_eq] at hx ⊢
        exact ⟨hx.1, fun hc => hx.2 (List.mem_cons_of_mem i hc)⟩
      · rw [decide_eq_true_eq]
        exact ⟨hroad, hnv⟩
      · rw [decide_eq_false_iff_not]
        intro hc
        exact hc.2 (List.mem_cons_self i visited)
    omega

/-- Exact value of the DFS along the remaining suffix of a chain: starting
from the first suffix edge with every earlier owned edge visited, the DFS
walks the suffix and returns its length. -/
theorem dfs_chain (edges : List Edge) (c : PlayerColor) :
    ∀ (es : List Nat) (fuel : Nat) (i a b : Nat) (ws visited : List Nat),
    es.length + 1 ≤ fuel →
    chainLink edges c i a b →
    RoadChain edges c es (b :: ws) →
    (i :: es).Nodup →
    (a :: b :: ws).Nodup →
    (∀ j, (edges.getD j defaultEdge).road = some c → j ∈ visited ∨ j ∈ i :: es) →
    (∀ j ∈ visited, j ∉ i :: es) →
    findLongestPathFromEdge edges c fuel i visited = es.length + 1 := by
  intro es
  induction es with
  | nil =>
    intro fuel i a b ws visited hfuel hlink hchain hnde hndw howned hvis
    match fuel, hfuel with
    | f + 1, _ =>
      simp only [findLongestPathFromEdge]
      have hcand : ((getEdgesConnectedToVertex edges (edges.getD i defaultEdge).vertex1 ++
          getEdgesConnectedToVertex edges (edges.getD i defaultEdge).vertex2).filter (fun nid =>
            decide (nid ≠ i ∧ nid ∉ i :: visited ∧
              (edges.getD nid defaultEdge).road = some c))) = [] := by
        rw [List.filter_eq_nil_iff]
        intro nid _
        simp only [decide_eq_true_eq]
        intro ⟨hne, hnvis, hroad⟩
        rcases howned nid hroad with hmem | hmem
        · exact hnvis (List.mem_cons_of_mem i hmem)
        · rcases List.mem_cons.mp hmem with rfl | hmem2
          · exact hne rfl
          · exact absurd hmem2 (List.not_mem_nil nid)
      rw [hcand]
      rfl
  | cons e2 es2 ih =>
    intro fuel i a b ws visited hfuel hlink hchain hnde hndw howned hvis
    match ws, hchain with
    | [], hchain => exact absurd hchain (by simp [RoadChain])
    | w1 :: ws2, hchain =>
      simp only [RoadChain] at hchain
      obtain ⟨hlink2, hrest⟩ := hchain
      match fuel, hfuel with
      | f + 1, hfuel =>
        simp only [findLongestPathFromEdge]
        have hall : ∀ nid ∈ ((getEdgesConnectedToVertex edges
            (edges.getD i defaultEdge).vertex1 ++
            getEdgesConnectedToVertex edges (edges.getD i defaultEdge).vertex2).filter
              (fun nid => decide (nid ≠ i ∧ nid ∉ i :: visited ∧
                (edges.getD nid defaultEdge).road = some c))), nid = e2 := by
          intro nid hnid
          rw [List.mem_filter, decide_eq_true_eq] at hnid
          obtain ⟨hconn, hne, hnvis, hroad⟩ := hnid
          have hines : nid ∈ e2 :: es2 := by
            rcases howned nid hroad with hmem | hmem
            · exact absurd (List.mem_cons_of_mem i hmem) (fun hc => hnvis hc)
            · rcases List.mem_cons.mp hmem with rfl | hmem2
              · exact absurd rfl hne
              · exact hmem2
          have htch : (edges.getD nid defaultEdge).vertex1 = a ∨
              (edges.getD nid defaultEdge).vertex2 = a ∨
              (edges.getD nid defaultEdge).vertex1 = b ∨
              (edges.getD nid defaultEdge).vertex2 = b := by
            rcases List.mem_append.mp hconn with hmem | hmem
            · have h1 := ((mem_getEdgesConnectedToVertex edges _ nid).mp hmem).2
              rcases hlink.2.2 with ⟨hv1, hv2⟩ | ⟨hv1, hv2⟩
              · rw [hv1] at h1
                rcases h1 with h1 | h1
                · exact Or.inl h1
                · exact Or.inr (Or.inl h1)
              · rw [hv1] at h1
                rcases h1 with h1 | h1
                · exact Or.inr (Or.inr (Or.inl h1))
                · exact Or.inr (Or.inr (Or.inr h1))
            · have h1 := ((mem_getEdgesConnectedToVertex edges _ nid).mp hmem).2
              rcases hlink.2.2 with ⟨hv1, hv2⟩ | ⟨hv1, hv2⟩
              · rw [hv2] at h1
                rcases h1 with h1 | h1
                · exact Or.inr (Or.inr (Or.inl h1))
                · exact Or.inr (Or.inr (Or.inr h1))
              · rw [hv2] at h1
                rcases h1 with h1 | h1
                · exact Or.inl h1
                · exact Or.inr (Or.inl h1)
          by_contra hne2
          have hmem2 : nid ∈ es2 := by
            rcases List.mem_cons.mp hines with rfl | h
            · exact absurd rfl hne2
            · exact h
          have hndw2 : (b :: w1 :: ws2).Nodup := List.Nodup.of_cons hndw
          rcases htch with h | h | h | h
          · have := RoadChain_touch edges c es2 (w1 :: ws2) hrest nid hmem2 a (Or.inl h)
            have hna : a ∉ w1 :: ws2 := by
              have : a ∉ b :: w1 :: ws2 := (List.nodup_cons.mp hndw).1
              intro hc
              exact this (List.mem_cons_of_mem b hc)
            exact hna this
          · have := RoadChain_touch edges c es2 (w1 :: ws2) hrest nid hmem2 a (Or.inr h)
            have hna : a ∉ w1 :: ws2 := by
              have : a ∉ b :: w1 :: ws2 := (List.nodup_cons.mp hndw).1
              intro hc
              exact this (List.mem_cons_of_mem b hc)
            exact hna this
          · have := RoadChain_touch edges c es2 (w1 :: ws2) hrest nid hmem2 b (Or.inl h)
            exact (List.nodup_cons.mp hndw2).1 this
          · have := RoadChain_touch edges c es2 (w1 :: ws2) hrest nid hmem2 b (Or.inr h)
            exact (List.nodup_cons.mp hndw2).1 this
        have hie : i ∉ e2 :: es2 := (List.nodup_cons.mp hnde).1
        have he2mem : e2 ∈ ((getEdgesConnectedToVertex edges
            (edges.getD i defaultEdge).vertex1 ++
            getEdgesConnectedToVertex edges (edges.getD i defaultEdge).vertex2).filter
              (fun nid => decide (nid ≠ i ∧ nid ∉ i :: visited ∧
                (edges.getD nid defaultEdge).road = some c))) := by
          rw [List.mem_filter, decide_eq_true_eq]
          have htch2 : (edges.getD e2 defaultEdge).vertex1 = b ∨
              (edges.getD e2 defaultEdge).vertex2 = b := by
            rcases hlink2.2.2 with ⟨hv1, _⟩ | ⟨_, hv2⟩
            · exact Or.inl hv1
            · exact Or.inr hv2
          constructor
          · rw [List.mem_append]
            rcases hlink.2.2 with ⟨_, hv2⟩ | ⟨hv1, _⟩
            · refine Or.inr ?_
              rw [mem_getEdgesConnectedToVertex, hv2]
              exact ⟨hlink2.1, htch2⟩
            · refine Or.inl ?_
              rw [mem_getEdgesConnectedToVertex, hv1]
              exact ⟨hlink2.1, htch2⟩
          · have hne : e2 ≠ i := fun hc => hie (hc ▸ List.mem_cons_self e2 es2)
            refine ⟨hne, ?_, hlink2.2.1⟩
            intro hc
            rcases List.mem_cons.mp hc with hc2 | hc2
            · exact hne hc2
            · exact hvis e2 hc2 (List.mem_cons_of_mem i (List.mem_cons_self e2 es2))
        rw [foldl_max_all_eq _ _ _ _ hall he2mem]
        have hrec : findLongestPathFromEdge edges c f e2 (i :: visited)
            = es2.length + 1 := by
          apply ih f e2 b w1 ws2 (i :: visited)
            (by simp only [List.length_cons] at hfuel; omega) hlink2 hrest
            (List.Nodup.of_cons hnde) (List.Nodup.of_cons hndw)
          · intro j hroad
            rcases howned j hroad with hmem | hmem
            · exact Or.inl (List.mem_cons_of_mem i hmem)
            · rcases List.mem_cons.mp hmem with rfl | hmem2
              · exact Or.inl (List.mem_cons_self j visited)
              · exact Or.inr hmem2
          · intro j hj
            rcases List.mem_cons.mp hj with rfl | hj2
            · exact hie
            · intro hc
              exact hvis j hj2 (List.mem_cons_of_mem i hc)
        rw [hrec]
        simp only [List.length_cons]
        omega

/-- For a player whose owned edges form a straight 5-edge chain, the
longest-road calculation returns exactly 5. -/
theorem calculateLongestRoad_chain (s : GameState) (playerId : Nat) (es ws : List Nat)
    (hlen : es.length = 5) (hnde : es.Nodup) (hndw : ws.Nodup)
    (hchain : RoadChain s.edges ((s.players.getD playerId defaultPlayer).color) es ws)
    (hiff : ∀ j, j < s.edges.length →
      ((s.edges.getD j defaultEdge).road
          = some ((s.players.getD playerId defaultPlayer).color) ↔ j ∈ es)) :
    calculateLongestRoad s playerId = 5 := by
  set c := (s.players.getD playerId defaultPlayer).color with hc
  set roads := (List.range s.edges.length).filter
    (fun i => decide ((s.edges.getD i defaultEdge).road = some c)) with hroads
  have mem_roads : ∀ j, j ∈ roads ↔ j ∈ es := by
    intro j
    rw [hroads, List.mem_filter, List.mem_range, decide_eq_true_eq]
    constructor
    · intro ⟨hlt, hrd⟩
      exact (hiff j hlt).mp hrd
    · intro hj
      have hlt := RoadChain_mem_lt s.edges c es ws hchain j hj
      exact ⟨hlt, (hiff j hlt).mpr hj⟩
  have hnodup_roads : roads.Nodup := List.Nodup.filter _ (List.nodup_range _)
  have hperm : roads.Perm es :=
    (List.perm_ext_iff_of_nodup hnodup_roads hnde).mpr mem_roads
  have hroadslen : roads.length = 5 := hperm.length_eq.trans hlen
  have hlenle : 5 ≤ s.edges.length := by
    have := List.length_filter_le
      (fun i => decide ((s.edges.getD i defaultEdge).road = some c))
      (List.range s.edges.length)
    rw [← hroads, hroadslen] at this
    simpa using this
  match es, hlen with
  | e1 :: es2, hlen =>
  have he1es : e1 ∈ e1 :: es2 := List.mem_cons_self e1 es2
  have he1 : e1 ∈ roads := (mem_roads e1).mpr he1es
  match ws, hchain with
  | [], hchain => exact absurd hchain (by simp [RoadChain])
  | [a], hchain => exact absurd hchain (by simp [RoadChain])
  | a :: b :: ws2, hchain =>
  simp only [RoadChain] at hchain
  obtain ⟨hlink, hrest⟩ := hchain
  have howned : ∀ j, (s.edges.getD j defaultEdge).road = some c →
      j ∈ ([] : List Nat) ∨ j ∈ e1 :: es2 := by
    intro j hroad
    by_cases hlt : j < s.edges.length
    · exact Or.inr ((hiff j hlt).mp hroad)
    · rw [List.getD_eq_default _ _ (Nat.le_of_not_lt hlt)] at hroad
      exact absurd hroad (by simp [defaultEdge])
  have hdfs : findLongestPathFromEdge s.edges c (s.edges.length + 1) e1 [] = 5 := by
    have h5 : es2.length + 1 = 5 := by simpa using hlen
    rw [dfs_chain s.edges c es2 (s.edges.length + 1) e1 a b ws2 []
      (by omega) hlink hrest hnde hndw howned
      (fun j hj => absurd hj (List.not_mem_nil j))]
    exact h5
  have hub : ∀ x ∈ roads,
      findLongestPathFromEdge s.edges c (s.edges.length + 1) x [] ≤ 5 := by
    intro x hx
    have hx2 := hx
    rw [hroads, List.mem_filter, List.mem_range, decide_eq_true_eq] at hx2
    have hle := dfs_le_ownedLeft s.edges c (s.edges.length + 1) x []
      hx2.2 hx2.1 (List.not_mem_nil x)
    have heq : ownedLeft s.edges c [] = roads.length := by
      rw [ownedLeft, hroads]
      congr 1
      apply List.filter_congr
      intro j _
      simp
    rw [heq, hroadslen] at hle
    exact hle
  have hfold : roads.foldl (fun m start =>
      max m (findLongestPathFromEdge s.edges c (s.edges.length + 1) start [])) 0 = 5 := by
    apply le_antisymm
    · exact foldl_max_le _ 5 roads 0 (by omega) hub
    · have hge := foldl_max_ge_of_mem
        (fun start => findLongestPathFromEdge s.edges c (s.edges.length + 1) start [])
        roads 0 e1 he1
      exact le_of_eq_of_le hdfs.symm hge
  have hne : roads ≠ [] := List.ne_nil_of_mem he1
  show (if roads = [] then 0
    else roads.foldl (fun m start =>
      if (([] : List Nat).contains start) = true then m
      else max m (findLongestPathFromEdge s.edges c (s.edges.length + 1) start [])) 0) = 5
  rw [if_neg hne]
  exact hfold

/-- Fixture for C7: a Y-shaped road network for red — three branches of 3,
2 and 1 edges meeting at vertex 0 (6 owned edges; the longest trail, which
combines the two longest branches, has 5 edges). -/
def c7YState : GameState :=
  { baseState with
      edges := [⟨0, 0, 1, some .red, none⟩, ⟨1, 1, 2, some .red, none⟩,
                ⟨2, 2, 3, some .red, none⟩, ⟨3, 0, 4, some .red, none⟩,
                ⟨4, 4, 5, some .red, none⟩, ⟨5, 0, 6, some .red, none⟩] }

/-- Fixture for the C7 witness: a straight 5-edge chain for red. -/
def c7ChainState : GameState :=
  { baseState with
      edges := (List.range 5).map (fun i => ⟨i, i, i + 1, some .red, none⟩) }

/-- C7 counterexample: on a Y network with branches of 3, 2 and 1 edges,
the calculation returns 6 — the total number of owned edges — not the
5-edge trail combining the two longest branches: the DFS continues from
either endpoint of the current edge, so after finishing one branch it
re-enters the junction and consumes the remaining branches. -/
theorem c7_y_network_counterexample :
    calculateLongestRoad c7YState 0 = 6 ∧
    ((List.range c7YState.edges.length).filter (fun i =>
      decide ((c7YState.edges.getD i defaultEdge).road = some PlayerColor.red))).length = 6 ∧
    (6 : Nat) ≠ 5 := by
  refine ⟨by decide, by decide, by decide⟩

/-- C7 (amended): on any straight chain of 5 owned edges the calculation
returns 5, as claimed; but on the Y-shaped network it returns the total
number of owned edges (6), not the longest trail combining the two longest
branches (5), because the backtracking DFS may continue from either
endpoint of the current edge. -/
theorem c7_chain_and_y_amended :
    (∀ (s : GameState) (playerId : Nat) (es ws : List Nat),
      es.length = 5 → es.Nodup → ws.Nodup →
      RoadChain s.edges ((s.players.getD playerId defaultPlayer).color) es ws →
      (∀ j, j < s.edges.length →
        ((s.edges.getD j defaultEdge).road
            = some ((s.players.getD playerId defaultPlayer).color) ↔ j ∈ es)) →
      calculateLongestRoad s playerId = 5) ∧
    (calculateLongestRoad c7YState 0 = 6 ∧
     ((List.range c7YState.edges.length).filter (fun i =>
       decide ((c7YState.edges.getD i defaultEdge).road = some PlayerColor.red))).length = 6) := by
  refine ⟨calculateLongestRoad_chain, by decide, by decide⟩

/-- C7 witness: the chain half applied at the concrete 5-edge chain. -/
theorem c7_chain_and_y_amended_witness :
    calculateLongestRoad c7ChainState 0 = 5 :=
  c7_chain_and_y_amended.1 c7ChainState 0 [0, 1, 2, 3, 4] [0, 1, 2, 3, 4, 5]
    (by decide) (by decide) (by decide)
    (by simp only [RoadChain, chainLink]; decide)
    (by decide)

/-! ### C5 — the two-round setup seat order -/

/-- Fixture board for the C5 script: 16 vertices and 8 pairwise-disjoint
edges (edge `i` joins vertices `2i` and `2i+1`), so every seat can place a
settlement and an incident road without distance-rule interference. -/
def c5Board : FullState :=
  { gs := { baseState with
      phase := .initialPlacement,
      initialPlacementPhase := true,
      initialPlacementRound := 1,
      vertices := (List.range 16).map (fun i => ⟨i, none, none⟩),
      edges := (List.range 8).map (fun i => ⟨i, 2 * i, 2 * i + 1, none, none⟩) },
    placements := fun _ => ⟨0, 0⟩ }

/-- One seat's setup move: place a settlement on vertex `v`, then a road on
edge `e` supported by `v`, through the public build entry points. -/
def c5Step (fs : FullState) (p v e : Nat) : Bool × FullState :=
  let r1 := buildSettlementF v p (fun _ => []) fs
  let r2 := buildRoadF e p (some v) r1.2
  (r1.1 && r2.1, r2.2)

/-- Script state after seat 0's round-1 move. -/
def c5A : Bool × FullState := c5Step c5Board 0 0 0

/-- Script state after seat 1's round-1 move. -/
def c5B : Bool × FullState := c5Step c5A.2 1 2 1

/-- Script state after seat 2's round-1 move. -/
def c5C : Bool × FullState := c5Step c5B.2 2 4 2

/-- Script state after seat 3's round-1 move. -/
def c5D : Bool × FullState := c5Step c5C.2 3 6 3

/-- Script state after seat 3's round-2 move. -/
def c5E : Bool × FullState := c5Step c5D.2 3 8 4

/-- Script state after seat 2's round-2 move. -/
def c5F : Bool × FullState := c5Step c5E.2 2 10 5

/-- Script state after seat 1's round-2 move. -/
def c5G : Bool × FullState := c5Step c5F.2 1 12 6

/-- Script state after seat 0's round-2 move, completing setup. -/
def c5H : Bool × FullState := c5Step c5G.2 0 14 7

/-- C5 (confirmed): the seat automaton — forward in round 1, switching to
round 2 on seat 3 and staying there, backward in round 2, ending on seat 0
with control handed to the turn machine — plus the full 4-seat script:
seats 0,1,2,3 each place a settlement and a road in round 1, then seats
3,2,1,0 place their second pair in round 2, after which the setup phase is
over, the phase is the turn machine's rolling phase, and seat 0 is current. -/
theorem c5_setup_sequence :
    (∀ fs : FullState,
      (fs.gs.initialPlacementRound = 1 → fs.gs.currentPlayerIndex = 3 →
        (advanceToNextPlayer fs).gs.initialPlacementRound = 2 ∧
        (advanceToNextPlayer fs).gs.currentPlayerIndex = 3) ∧
      (fs.gs.initialPlacementRound = 1 → fs.gs.currentPlayerIndex ≠ 3 →
        (advanceToNextPlayer fs).gs.initialPlacementRound = 1 ∧
        (advanceToNextPlayer fs).gs.currentPlayerIndex = (fs.gs.currentPlayerIndex + 1) % 4) ∧
      (fs.gs.initialPlacementRound ≠ 1 → fs.gs.currentPlayerIndex = 0 →
        (advanceToNextPlayer fs).gs.initialPlacementPhase = false ∧
        (advanceToNextPlayer fs).gs.phase = GamePhase.rollingDice ∧
        (advanceToNextPlayer fs).gs.currentPlayerIndex = 0) ∧
      (fs.gs.initialPlacementRound ≠ 1 → fs.gs.currentPlayerIndex ≠ 0 →
        (advanceToNextPlayer fs).gs.initialPlacementRound = fs.gs.initialPlacementRound ∧
        (advanceToNextPlayer fs).gs.currentPlayerIndex
          = (fs.gs.currentPlayerIndex + 4 - 1) % 4)) ∧
    (c5A.1 = true ∧ c5B.1 = true ∧ c5C.1 = true ∧ c5D.1 = true ∧
     c5E.1 = true ∧ c5F.1 = true ∧ c5G.1 = true ∧ c5H.1 = true) ∧
    (c5Board.gs.initialPlacementRound = 1 ∧ c5Board.gs.currentPlayerIndex = 0 ∧
     c5A.2.gs.initialPlacementRound = 1 ∧ c5A.2.gs.currentPlayerIndex = 1 ∧
     c5B.2.gs.initialPlacementRound = 1 ∧ c5B.2.gs.currentPlayerIndex = 2 ∧
     c5C.2.gs.initialPlacementRound = 1 ∧ c5C.2.gs.currentPlayerIndex = 3 ∧
     c5D.2.gs.initialPlacementRound = 2 ∧ c5D.2.gs.currentPlayerIndex = 3 ∧
     c5E.2.gs.initialPlacementRound = 2 ∧ c5E.2.gs.currentPlayerIndex = 2 ∧
     c5F.2.gs.initialPlacementRound = 2 ∧ c5F.2.gs.currentPlayerIndex = 1 ∧
     c5G.2.gs.initialPlacementRound = 2 ∧ c5G.2.gs.currentPlayerIndex = 0) ∧
    (c5H.2.gs.initialPlacementPhase = false ∧
     c5H.2.gs.phase = GamePhase.rollingDice ∧
     c5H.2.gs.currentPlayerIndex = 0) := by
  refine ⟨?_, ⟨?_, ?_, ?_, ?_, ?_, ?_, ?_, ?_⟩, ?_, ?_⟩
  · intro fs
    refine ⟨?_, ?_, ?_, ?_⟩
    · intro h1 h2
      simp [advanceToNextPlayer, h1, h2]
    · intro h1 h2
      simp [advanceToNextPlayer, h1, h2]
    · intro h1 h2
      simp [advanceToNextPlayer, h1, h2]
    · intro h1 h2
      simp [advanceToNextPlayer, h1, h2]
  all_goals decide

/-- C5 witness: the seat automaton applied at the fixture — from round 1
seat 0 the next seat is 1, and from round 2 seat 0 the setup ends. -/
theorem c5_setup_sequence_witness :
    ((advanceToNextPlayer c5Board).gs.initialPlacementRound = 1 ∧
     (advanceToNextPlayer c5Board).gs.currentPlayerIndex
       = (c5Board.gs.currentPlayerIndex + 1) % 4) ∧
    ((advanceToNextPlayer c5G.2).gs.initialPlacementPhase = false ∧
     (advanceToNextPlayer c5G.2).gs.phase = GamePhase.rollingDice ∧
     (advanceToNextPlayer c5G.2).gs.currentPlayerIndex = 0) :=
  ⟨(c5_setup_sequence.1 c5Board).2.1 (by decide) (by decide),
   (c5_setup_sequence.1 c5G.2).2.2.1 (by decide) (by decide)⟩

/-! ### C10 — builds ignore phase and current player -/

/-- C10 (confirmed): outside the initial-placement phase, the three build
commands consult neither the phase, nor the current seat, nor the dice flag:
for any state (hence any phase, any current player, dice rolled or not) and
any in-range `playerId`, a build passing its affordability, vacancy and
connectivity checks succeeds and mutates the board. -/
theorem c10_builds_ignore_phase_and_turn :
    (∀ (fs : FullState) (v p : Nat) (adjHexes : Nat → List Nat),
      fs.gs.initialPlacementPhase = false →
      p < fs.gs.players.length → v < fs.gs.vertices.length →
      canAffordSettlement (fs.gs.players.getD p defaultPlayer) = true →
      (fs.gs.vertices.getD v defaultVertex).building = none →
      checkDistanceRule fs.gs v = true →
      (buildSettlementF v p adjHexes fs).1 = true ∧
      ((buildSettlementF v p adjHexes fs).2.gs.vertices.getD v defaultVertex).building
        = some Building.settlement) ∧
    (∀ (fs : FullState) (v p : Nat),
      p < fs.gs.players.length → v < fs.gs.vertices.length →
      (fs.gs.vertices.getD v defaultVertex).building = some Building.settlement →
      (fs.gs.vertices.getD v defaultVertex).playerColor
        = some (fs.gs.players.getD p defaultPlayer).color →
      canAffordCity (fs.gs.players.getD p defaultPlayer) = true →
      (buildCityF v p fs).1 = true ∧
      ((buildCityF v p fs).2.gs.vertices.getD v defaultVertex).building = some Building.city) ∧
    (∀ (fs : FullState) (e p : Nat) (vopt : Option Nat),
      fs.gs.initialPlacementPhase = false →
      p < fs.gs.players.length → e < fs.gs.edges.length →
      (fs.gs.edges.getD e defaultEdge).road = none →
      canAffordRoad (fs.gs.players.getD p defaultPlayer) = true →
      isRoadConnected fs.gs e p = true →
      (buildRoadF e p vopt fs).1 = true ∧
      ((buildRoadF e p vopt fs).2.gs.edges.getD e defaultEdge).road
        = some (fs.gs.players.getD p defaultPlayer).color) := by
  refine ⟨?_, ?_, ?_⟩
  · intro fs v p adjHexes hip hp hv hca hb hd
    have hnotip : ¬ (fs.gs.initialPlacementPhase = true) := by rw [hip]; decide
    simp only [buildSettlementF, if_neg hnotip, buildSettlement,
      if_pos (And.intro hp hv), if_neg (not_not_intro hca), if_neg (not_not_intro hb),
      if_neg (not_not_intro hd)]
    exact ⟨trivial, by rw [getD_set_self _ _ _ _ hv]⟩
  · intro fs v p hp hv hb hc hca
    have hne : ¬ ((fs.gs.vertices.getD v defaultVertex).building ≠ some Building.settlement ∨
        (fs.gs.vertices.getD v defaultVertex).playerColor
          ≠ some (fs.gs.players.getD p defaultPlayer).color) := by
      intro hcontra
      rcases hcontra with h | h
      · exact h hb
      · exact h hc
    simp only [buildCityF, buildCity, if_pos (And.intro hp hv), if_neg hne,
      if_neg (not_not_intro hca)]
    exact ⟨trivial, by rw [getD_set_self _ _ _ _ hv]⟩
  · intro fs e p vopt hip hp he hroad hca hconn
    have hnotip : ¬ (fs.gs.initialPlacementPhase = true ∧ vopt ≠ none) := by
      intro hcontra
      rw [hip] at hcontra
      exact absurd hcontra.1 (by decide)
    simp only [buildRoadF, if_neg hnotip, buildRoadNormal,
      if_pos (And.intro hp he), if_neg (not_not_intro hroad), if_neg (not_not_intro hca),
      if_neg (not_not_intro hconn)]
    refine ⟨trivial, ?_⟩
    rw [updateLongestRoad_edges]
    rw [getD_set_self _ _ _ _ he]

/-- Fixture for the C10 witness: phase is the rolling phase with no dice
rolled, the current seat is 0, yet the building player is seat 1 (blue),
who owns a settlement on vertex 2, an adjacent empty vertex 0, and the
resources for a settlement, a city and a road. -/
def c10State : GameState :=
  { baseState with
      phase := .rollingDice,
      currentPlayerIndex := 0,
      diceRolled := false,
      players := [createPlayer 0 .red,
                  { createPlayer 1 .blue with resources := ⟨2, 2, 1, 3, 3⟩ },
                  createPlayer 2 .orange, createPlayer 3 .white],
      vertices := [⟨0, none, none⟩, ⟨1, none, none⟩, ⟨2, some .settlement, some .blue⟩,
                   ⟨3, none, none⟩],
      edges := [⟨0, 0, 1, none, none⟩, ⟨1, 2, 3, none, none⟩] }

/-- The C10 fixture wrapped with trivial placement counters. -/
def c10Full : FullState := { gs := c10State, placements := fun _ => ⟨0, 0⟩ }

/-- C10 witness: on the fixture, seat 1 (not the current player, dice not
rolled, phase not the main phase) successfully builds a settlement on
vertex 0, a city on its settlement vertex 2, and a road on edge 1. -/
theorem c10_builds_ignore_phase_and_turn_witness :
    ((buildSettlementF 0 1 (fun _ => []) c10Full).1 = true ∧
      ((buildSettlementF 0 1 (fun _ => []) c10Full).2.gs.vertices.getD 0 defaultVertex).building
        = some Building.settlement) ∧
    ((buildCityF 2 1 c10Full).1 = true ∧
      ((buildCityF 2 1 c10Full).2.gs.vertices.getD 2 defaultVertex).building
        = some Building.city) ∧
    ((buildRoadF 1 1 none c10Full).1 = true ∧
      ((buildRoadF 1 1 none c10Full).2.gs.edges.getD 1 defaultEdge).road
        = some (c10Full.gs.players.getD 1 defaultPlayer).color) :=
  ⟨c10_builds_ignore_phase_and_turn.1 c10Full 0 1 (fun _ => []) (by decide) (by decide)
      (by decide) (by decide) (by decide) (by decide),
   c10_builds_ignore_phase_and_turn.2.1 c10Full 2 1 (by decide) (by decide) (by decide)
      (by decide) (by decide),
   c10_builds_ignore_phase_and_turn.2.2 c10Full 1 1 none (by decide) (by decide) (by decide)
      (by decide) (by decide) (by decide)⟩
